import Mathlib

/-!
# wechat-alarm: the dispatch pipeline of `main.go`

A shallow embedding of `sendToWeChat`, `GetAccessToken` and `Send`.

* The network is a script: the i-th HTTP request the program makes receives the
  i-th scripted result, after the scripted latency.
* The clock counts nanoseconds since Go's zero `time.Time`; it advances by the
  latency of each request and by the duration of each `time.Sleep`.
* Everything the program does to the outside (requests, sleeps, log lines) is
  appended to a trace.
* The nesting of the two self-calling methods is bounded by a fuel argument; a run
  that reaches the bound ends as `unfinished`, with the trace it has produced.
-/

namespace WechatAlarm

/-! ## Values of `simplejson` -/

/-- The value held by a `*simplejson.Json`: the result of decoding a JSON text with
`UseNumber`, so a number keeps its literal text and an object is its key/value map. -/
inductive Json where
  | null
  | bool (b : Bool)
  | num (lit : String)
  | str (s : String)
  | arr (xs : List Json)
  | obj (kvs : List (String × Json))

namespace Json

/-- Method `(*Json).Get`: the member under `key` of an object, a `Json` holding nil otherwise. -/
def Get (j : Json) (key : String) : Json :=
  match j with
  | obj kvs => (kvs.lookup key).getD null
  | _ => null

/-- Method `(*Json).GetIndex`: the element at `index` of an array, nil otherwise. -/
def GetIndex (j : Json) (index : Nat) : Json :=
  match j with
  | arr xs => xs.getD index null
  | _ => null

/-- Method `(*Json).Array` with its error dropped: the nil slice when the value is no array. -/
def Array (j : Json) : List Json :=
  match j with
  | arr xs => xs
  | _ => []

/-- Method `(*Json).MustString`: the string held, `""` for anything else. -/
def MustString (j : Json) : String :=
  match j with
  | str s => s
  | _ => ""

end Json

/-- Value of a decimal digit character. -/
def digitVal (c : Char) : Nat := c.toNat - 48

/-- Go's `isDigit` on one byte. -/
def isDigit (c : Char) : Bool := decide (48 ≤ c.toNat) && decide (c.toNat ≤ 57)

/-- Reads a run of decimal digits into `acc`; fails on any other character. -/
def digitsValue : List Char → Nat → Option Nat
  | [], acc => some acc
  | c :: cs, acc => if isDigit c then digitsValue cs (acc * 10 + digitVal c) else none

/-- Go's `strconv.ParseInt(s, 10, 64)`: an optional sign and at least one digit, in the range of int64. -/
def parseInt64 (s : String) : Option Int :=
  match s.data with
  | [] => none
  | '-' :: ds =>
    if ds.isEmpty then none else
      (digitsValue ds 0).bind fun n => if n ≤ 2 ^ 63 then some (-(n : Int)) else none
  | '+' :: ds =>
    if ds.isEmpty then none else
      (digitsValue ds 0).bind fun n => if n < 2 ^ 63 then some (n : Int) else none
  | ds => (digitsValue ds 0).bind fun n => if n < 2 ^ 63 then some (n : Int) else none

/-- Method `(*Json).MustInt`: the int64 value of a number literal, `0` when the value is not a
number or its literal is not an int64. -/
def Json.MustInt (j : Json) : Int :=
  match j with
  | Json.num lit => (parseInt64 lit).getD 0
  | _ => 0

/-! ## `time.Parse` and `Time.Format` for the two layouts of the program -/

/-- The part of a `time.Time` that `Format` prints: the calendar fields in the value's
location, and the location's offset in seconds east of UTC. -/
structure WallTime where
  year : Nat
  month : Nat
  day : Nat
  hour : Nat
  min : Nat
  sec : Nat
  nsec : Nat
  offset : Int
  deriving DecidableEq, Repr

/-- The zero `time.Time`: 1 January of year 1, 00:00:00 UTC. -/
def zeroTime : WallTime := ⟨1, 1, 1, 0, 0, 0, 0, 0⟩

/-- Go's `getnum`: one or two digits, exactly two when `fixed`. -/
def getnum (s : List Char) (fixed : Bool) : Option (Nat × List Char) :=
  match s with
  | [] => none
  | c0 :: rest =>
    if isDigit c0 then
      match rest with
      | [] => if fixed then none else some (digitVal c0, [])
      | c1 :: rest1 =>
        if isDigit c1 then some (digitVal c0 * 10 + digitVal c1, rest1)
        else if fixed then none else some (digitVal c0, rest)
    else none

/-- Go's `skip` for a one-character literal of the layout. -/
def skip (value : List Char) (c : Char) : Option (List Char) :=
  match value with
  | [] => none
  | v :: rest => if v = c then some rest else none

/-- Go's `isLeap`. -/
def isLeap (year : Nat) : Bool := year % 4 = 0 && (year % 100 ≠ 0 || year % 400 = 0)

/-- Go's `daysIn`. -/
def daysIn (month year : Nat) : Nat :=
  if month = 2 then (if isLeap year then 29 else 28)
  else if month = 4 ∨ month = 6 ∨ month = 9 ∨ month = 11 then 30
  else 31

/-- Go's `commaOrPeriod`. -/
def commaOrPeriod (c : Char) : Bool := c = '.' || c = ','

/-- The digits right after the separator of a fractional second, and what follows them. -/
def spanDigits : List Char → List Char × List Char
  | [] => ([], [])
  | c :: cs =>
    if isDigit c then ((spanDigits cs).1.cons c, (spanDigits cs).2) else ([], c :: cs)

/-- Go's `parseNanoseconds` on the digits after the separator: at most nine are read,
and they are scaled to nanoseconds. -/
def parseNanoseconds (digits : List Char) : Option Nat :=
  let ds := digits.take 9
  (digitsValue ds 0).map fun n => n * 10 ^ (9 - ds.length)

/-- The layout element `.999999999`: an optional fractional second. -/
def parseFrac (value : List Char) : Option (Nat × List Char) :=
  match value with
  | c0 :: c1 :: rest =>
    if commaOrPeriod c0 && isDigit c1 then
      (parseNanoseconds (spanDigits (c1 :: rest)).1).map fun ns => (ns, (spanDigits (c1 :: rest)).2)
    else some (0, value)
  | _ => some (0, value)

/-- The layout element `-07:00`: sign, two digits, a colon, two digits. -/
def parseZone (value : List Char) : Option (Int × List Char) :=
  match value with
  | sign :: h0 :: h1 :: colon :: m0 :: m1 :: rest =>
    if colon ≠ ':' then none else
    match getnum [h0, h1] true, getnum [m0, m1] true with
    | some (hr, _), some (mm, _) =>
      if hr > 24 ∨ mm > 60 then none
      else if sign = '+' then some ((((hr * 60 + mm) * 60 : Nat) : Int), rest)
      else if sign = '-' then some (-(((hr * 60 + mm) * 60 : Nat) : Int), rest)
      else none
    | _, _ => none
  | _ => none

/-- The layout element `2006`: four characters, all of them digits. -/
def parseYear (value : List Char) : Option (Nat × List Char) :=
  match value with
  | a :: b :: c :: d :: rest =>
    if isDigit a then (digitsValue [a, b, c, d] 0).map fun y => (y, rest) else none
  | _ => none

/-- The elements `2006-01-02` of the layout: year, month and day. The month is
range-checked here, the day once the whole text is read. -/
def parseDate (value : List Char) : Option (Nat × Nat × Nat × List Char) :=
  match parseYear value with
  | none => none
  | some (year, v) =>
    match skip v '-' with
    | none => none
    | some v =>
      match getnum v true with
      | none => none
      | some (month, v) =>
        if month = 0 ∨ 12 < month then none else
        match skip v '-' with
        | none => none
        | some v =>
          match getnum v true with
          | none => none
          | some (day, v) => some (year, month, day, v)

/-- The elements `15:04:05` of the layout: hour, minute and second, each range-checked. -/
def parseClock (value : List Char) : Option (Nat × Nat × Nat × List Char) :=
  match getnum value false with
  | none => none
  | some (hour, v) =>
    if 24 ≤ hour then none else
    match skip v ':' with
    | none => none
    | some v =>
      match getnum v true with
      | none => none
      | some (min, v) =>
        if 60 ≤ min then none else
        match skip v ':' with
        | none => none
        | some v =>
          match getnum v true with
          | none => none
          | some (sec, v) => if 60 ≤ sec then none else some (hour, min, sec, v)

/-- The elements `.999999999-07:00` of the layout, which must end the text. -/
def parseTail (value : List Char) : Option (Nat × Int) :=
  match parseFrac value with
  | none => none
  | some (nsec, v) =>
    match parseZone v with
    | none => none
    | some (zoneOffset, v) => if v.isEmpty then some (nsec, zoneOffset) else none

/-- Go's `time.Parse(TimeFormatISODate, value)` with
`TimeFormatISODate = "2006-01-02T15:04:05.999999999-07:00"`; `none` is a parse error.
The result carries the fields as written: the parsed time is given a location with the
parsed offset, so `Format` prints the wall clock of the text. -/
def Parse (value : String) : Option WallTime :=
  match parseDate value.data with
  | none => none
  | some (year, month, day, v) =>
    match skip v 'T' with
    | none => none
    | some v =>
      match parseClock v with
      | none => none
      | some (hour, min, sec, v) =>
        match parseTail v with
        | none => none
        | some (nsec, zoneOffset) =>
          if day < 1 ∨ day > daysIn month year then none
          else some ⟨year, month, day, hour, min, sec, nsec, zoneOffset⟩

/-- Go's `appendInt` for a non-negative number: decimal, zero-padded to `width`. -/
def appendInt (x width : Nat) : List Char :=
  List.replicate (width - (Nat.toDigits 10 x).length) '0' ++ Nat.toDigits 10 x

/-- Go's `t.Format(TimeFormat)` with `TimeFormat = "2006-01-02 15:04:05"`. -/
def Format (t : WallTime) : String :=
  String.mk (appendInt t.year 4 ++ '-' :: appendInt t.month 2 ++ '-' :: appendInt t.day 2 ++
    ' ' :: appendInt t.hour 2 ++ ':' :: appendInt t.min 2 ++ ':' :: appendInt t.sec 2)

/-! ## What lies outside the program -/

/-- Library behaviour the program depends on and that is fixed by its environment. -/
structure Lib where
  /-- `simplejson.NewJson`: the decoded value, `none` when the text is not JSON. -/
  NewJson : String → Option Json
  /-- Calendar fields, in the local time zone, of the clock reading `time.Now()`. -/
  localTime : Nat → WallTime

/-- The global `conf` filled by `init`; `Level` is the severity-to-recipient map. -/
structure Conf where
  CorpID : String
  CorpSecret : String
  AgentID : String
  Level : List (String × String)

/-- The lookup `conf.Level[level]`: a missing key gives the empty string. -/
def Conf.recipient (conf : Conf) (level : String) : String :=
  (conf.Level.lookup level).getD ""

/-- What an HTTP request comes back with: `(nil, err)`, or a response whose body
`ioutil.ReadAll` returns as `body`, with an error when `readOk` is false. -/
inductive HttpResult where
  | transportError
  | response (body : String) (readOk : Bool)
  deriving DecidableEq, Repr

/-- The log statements of the three methods, with their arguments. -/
inductive LogLine where
  | errorJson
  | tokenStart
  | tokenConnectFail
  | tokenReconnect
  | tokenConnectOk
  | tokenReadFail
  | tokenReadOk
  | tokenOk (token : String)
  | tokenFail (errmsg : String)
  | tokenRetry
  | checkToken
  | tokenTimeout (before : Int)
  | tokenNotTimeout
  | startSend
  | sendConnectFail
  | sendReadFail
  | sendOk (msg : String)
  | sendFail (errmsg : String)
  | invalidUser (user : String)
  deriving DecidableEq, Repr

/-- Observable actions. Durations are in nanoseconds. -/
inductive Event where
  | get (url : String)
  | post (url : String) (body : String)
  | sleep (d : Nat)
  | log (line : LogLine)
  deriving DecidableEq, Repr

/-- The struct `AlertMSG`; `MCH` is the content of the channel, oldest first, and
`AccessTokenCreatAt` is an instant in nanoseconds since the zero time. -/
structure AlertMSG where
  MCH : List String
  CorpID : String
  CorpSecret : String
  AgentID : String
  AccessToken : String
  AccessTokenCreatAt : Nat
  deriving DecidableEq, Repr

/-- The receiver together with the clock, the network script and the trace. -/
structure State where
  m : AlertMSG
  now : Nat
  net : List (Nat × HttpResult)
  trace : List Event
  deriving DecidableEq, Repr

/-- How a call ends: it returns, it panics (nil dereference), `log.Fatalln` exits the
process, it waits on the empty channel, or it is still running when the bound on the
nesting of calls is reached. -/
inductive Outcome where
  | returned
  | panicked
  | exited
  | blocked
  | unfinished
  deriving DecidableEq, Repr

/-- One second, in nanoseconds. -/
def second : Nat := 1000000000

/-- The result of `time.ParseDuration("2h")`. -/
def timeoutDuration : Nat := 2 * 60 * 60 * second

namespace State

/-- Appends a log line to the trace. -/
def log (s : State) (l : LogLine) : State := { s with trace := s.trace ++ [Event.log l] }

/-- Go's `time.Sleep(d)`. -/
def Sleep (s : State) (d : Nat) : State :=
  { s with now := s.now + d, trace := s.trace ++ [Event.sleep d] }

/-- Performs the request `e`: takes the next scripted result; an exhausted script is a
network that stays down. -/
def request (s : State) (e : Event) : HttpResult × State :=
  match s.net with
  | [] => (HttpResult.transportError, { s with trace := s.trace ++ [e] })
  | (latency, r) :: rest =>
    (r, { s with now := s.now + latency, net := rest, trace := s.trace ++ [e] })

end State

/-- The URL of the token endpoint. -/
def tokenURL (corpID corpSecret : String) : String :=
  "https://qyapi.weixin.qq.com/cgi-bin/gettoken?corpid=" ++ corpID ++ "&corpsecret=" ++ corpSecret

/-- The URL of the send endpoint. -/
def sendURL (token : String) : String :=
  "https://qyapi.weixin.qq.com/cgi-bin/message/send?access_token=" ++ token

/-! ## The three methods -/

/-- Method `(*AlertMSG).GetAccessToken`. After a failed `http.Get` the retry is a nested call,
and when that call returns the outer one goes on to `defer resp.Body.Close()` with a
nil `resp`. After a failed read the outer call goes on with the bytes it has. -/
def GetAccessToken (lib : Lib) : Nat → State → Outcome × State
  | 0, s => (Outcome.unfinished, s)
  | fuel + 1, s =>
    let s := s.log LogLine.tokenStart
    let api := tokenURL s.m.CorpID s.m.CorpSecret
    match s.request (Event.get api) with
    | (HttpResult.transportError, s) =>
      let s := ((s.log LogLine.tokenConnectFail).log LogLine.tokenReconnect).Sleep (5 * second)
      match GetAccessToken lib fuel s with
      | (Outcome.returned, s) => (Outcome.panicked, s)
      | (o, s) => (o, s)
    | (HttpResult.response body readOk, s) =>
      let s := s.log LogLine.tokenConnectOk
      let afterRead : Outcome × State :=
        if readOk then (Outcome.returned, s.log LogLine.tokenReadOk)
        else GetAccessToken lib fuel
          (((s.log LogLine.tokenReadFail).log LogLine.tokenReconnect).Sleep (5 * second))
      match afterRead with
      | (Outcome.returned, s) =>
        match lib.NewJson body with
        | none => (Outcome.panicked, s)
        | some json =>
          let errcode := (json.Get "errcode").MustInt
          let errmsg := (json.Get "errmsg").MustString
          if errcode = 0 then
            let s := { s with m := { s.m with
              AccessToken := (json.Get "access_token").MustString
              AccessTokenCreatAt := s.now } }
            (Outcome.returned, s.log (LogLine.tokenOk s.m.AccessToken))
          else
            GetAccessToken lib fuel
              (((s.log (LogLine.tokenFail errmsg)).log LogLine.tokenRetry).Sleep (5 * second))
      | (o, s) => (o, s)

/-- Method `(*AlertMSG).Send`. The retry after a failed `http.Post` is a nested call of the
whole method, expiry check included, and when it returns the outer call goes on to
`defer resp.Body.Close()` with a nil `resp`. -/
def Send (lib : Lib) : Nat → String → State → Outcome × State
  | 0, _, s => (Outcome.unfinished, s)
  | fuel + 1, msg, s =>
    let s := s.log LogLine.checkToken
    let currentTime := s.now
    let checked : Outcome × State :=
      if currentTime > s.m.AccessTokenCreatAt + timeoutDuration then
        GetAccessToken lib fuel (s.log (LogLine.tokenTimeout
          ((s.m.AccessTokenCreatAt + timeoutDuration : Nat) - (currentTime : Int))))
      else (Outcome.returned, s.log LogLine.tokenNotTimeout)
    match checked with
    | (Outcome.returned, s) =>
      let s := s.log LogLine.startSend
      let api := sendURL s.m.AccessToken
      match s.request (Event.post api msg) with
      | (HttpResult.transportError, s) =>
        let s := (s.log LogLine.sendConnectFail).Sleep (5 * second)
        match Send lib fuel msg s with
        | (Outcome.returned, s) => (Outcome.panicked, s)
        | (o, s) => (o, s)
      | (HttpResult.response body readOk, s) =>
        let afterRead : Outcome × State :=
          if readOk then (Outcome.returned, s)
          else Send lib fuel msg ((s.log LogLine.sendReadFail).Sleep (5 * second))
        match afterRead with
        | (Outcome.returned, s) =>
          match lib.NewJson body with
          | none => (Outcome.panicked, s)
          | some json =>
            let errcode := (json.Get "errcode").MustInt
            let errmsg := (json.Get "errmsg").MustString
            let invalidateUser := (json.Get "invaliduser").MustString
            let s := if errcode = 0 then s.log (LogLine.sendOk msg)
              else s.log (LogLine.sendFail errmsg)
            let s := if invalidateUser.length > 0 then s.log (LogLine.invalidUser invalidateUser)
              else s
            (Outcome.returned, s)
        | (o, s) => (o, s)
    | (o, s) => (o, s)

/-- The fields read from one element of `alerts` (lines 86 to 94 and 97). -/
structure AlertEvent where
  status : String
  alertName : String
  hostName : String
  env : String
  job : String
  project : String
  service : String
  level : String
  startsAt : String
  startsTime : WallTime
  deriving DecidableEq, Repr

/-- The lookups of the loop body on the element `alert`. -/
def readAlert (alert : Json) : AlertEvent :=
  { status := (alert.Get "status").MustString
    alertName := ((alert.Get "labels").Get "alertname").MustString
    hostName := ((alert.Get "labels").Get "hostname").MustString
    env := ((alert.Get "labels").Get "env").MustString
    job := ((alert.Get "labels").Get "job").MustString
    project := ((alert.Get "labels").Get "project").MustString
    service := ((alert.Get "labels").Get "service").MustString
    level := ((alert.Get "labels").Get "level").MustString
    startsAt := (alert.Get "startsAt").MustString
    startsTime := (Parse (alert.Get "startsAt").MustString).getD zeroTime }

/-- The `fmt.Sprintf` of the loop body: every argument is inserted as it is. -/
def formatMsg (toUser status alertName project env hostName job service level
    startAt sendAt : String) : String :=
  "\x7b\n   \"touser\" : \"" ++ toUser ++
  "\",\n   \"toparty\" : \"PartyID1 | PartyID2\",\n   \"totag\" : \"TagID1 | TagID2\",\n   \"msgtype\" : \"text\",\n   \"agentid\" : 1000002,\n   \"text\" : \x7b\n\t\t\"content\" : \"[" ++
  status ++ "]-" ++ alertName ++ "</br>Project: " ++ project ++ "</br>Env: " ++ env ++
  "</br>Hostname: " ++ hostName ++ "</br>Job: " ++ job ++ "</br>Service: " ++ service ++
  "</br>Level: " ++ level ++ "</br>StartAt: " ++ startAt ++ "</br>SendAt: " ++ sendAt ++
  "\"\n   \x7d\n\x7d"

/-- The message built for the event `a` when the clock reads `currentTime`. -/
def buildMsg (conf : Conf) (a : AlertEvent) (currentTime : WallTime) : String :=
  formatMsg (conf.recipient a.level) a.status a.alertName a.project a.env a.hostName a.job
    a.service a.level (Format a.startsTime) (Format currentTime)

/-- The `for i := range alerts` loop of `sendToWeChat`, with `n` iterations left and
the index at `i`. A `Send` that does not return ends the loop with its outcome. -/
def sendLoop (lib : Lib) (conf : Conf) (fuel : Nat) (json : Json) :
    Nat → Nat → State → Outcome × State
  | 0, _, s => (Outcome.returned, s)
  | n + 1, i, s =>
    let alert := (json.Get "alerts").GetIndex i
    let msg := buildMsg conf (readAlert alert) (lib.localTime s.now)
    match Send lib fuel msg s with
    | (Outcome.returned, s) => sendLoop lib conf fuel json n (i + 1) (s.Sleep (1 * second))
    | (o, s) => (o, s)

/-- Method `(*AlertMSG).sendToWeChat`: one payload is taken from the channel. -/
def sendToWeChat (lib : Lib) (conf : Conf) (fuel : Nat) (s : State) : Outcome × State :=
  match s.m.MCH with
  | [] => (Outcome.blocked, s)
  | payload :: queued =>
    let s := { s with m := { s.m with MCH := queued } }
    match lib.NewJson payload with
    | none => (Outcome.exited, s.log LogLine.errorJson)
    | some json =>
      let alerts := (json.Get "alerts").Array
      sendLoop lib conf fuel json alerts.length 0 s

/-- The goroutine of `main`: `for { alertReceive.sendToWeChat() }`, stopped as
unfinished after `rounds` iterations. -/
def dispatch (lib : Lib) (conf : Conf) (fuel : Nat) : Nat → State → Outcome × State
  | 0, s => (Outcome.unfinished, s)
  | rounds + 1, s =>
    match sendToWeChat lib conf fuel s with
    | (Outcome.returned, s) => dispatch lib conf fuel rounds s
    | (o, s) => (o, s)

/-! ## Reading a trace -/

/-- The events a run from `s` to `t` has appended to the trace. -/
def emitted (s t : State) : List Event := t.trace.drop s.trace.length

/-- Whether the event is an HTTP request. -/
def Event.isRequest : Event → Bool
  | Event.get _ => true
  | Event.post _ _ => true
  | _ => false

/-- Whether the event is a log line. -/
def Event.isLog : Event → Bool
  | Event.log _ => true
  | _ => false

/-- The HTTP requests of a trace, in order. -/
def requests (evs : List Event) : List Event := evs.filter Event.isRequest

/-- The requests and sleeps of a trace, in order, the log lines left out. -/
def actions (evs : List Event) : List Event := evs.filter fun e => !e.isLog

/-- The first HTTP request of a trace. -/
def firstRequest (evs : List Event) : Option Event := (requests evs).head?

/-! ## States and traces the theorems refer to -/

/-- The state in which a retry of `GetAccessToken` starts after a failed `http.Get`. -/
def afterGetFailure (s : State) (latency : Nat) (rest : List (Nat × HttpResult)) : State :=
  { s with
    now := s.now + latency + 5 * second
    net := rest
    trace := s.trace ++ [Event.log LogLine.tokenStart,
      Event.get (tokenURL s.m.CorpID s.m.CorpSecret), Event.log LogLine.tokenConnectFail,
      Event.log LogLine.tokenReconnect, Event.sleep (5 * second)] }

/-- The state in which a retry of `GetAccessToken` starts after a response with a
non-zero errcode and the message `errmsg`. -/
def afterTokenRefusal (s : State) (latency : Nat) (errmsg : String)
    (rest : List (Nat × HttpResult)) : State :=
  { s with
    now := s.now + latency + 5 * second
    net := rest
    trace := s.trace ++ [Event.log LogLine.tokenStart,
      Event.get (tokenURL s.m.CorpID s.m.CorpSecret), Event.log LogLine.tokenConnectOk,
      Event.log LogLine.tokenReadOk, Event.log (LogLine.tokenFail errmsg),
      Event.log LogLine.tokenRetry, Event.sleep (5 * second)] }

/-- The state a `GetAccessToken` attempt ends in when it is answered with errcode 0
and the token `token`. -/
def afterTokenGrant (s : State) (latency : Nat) (token : String)
    (rest : List (Nat × HttpResult)) : State :=
  { m := { s.m with AccessToken := token, AccessTokenCreatAt := s.now + latency }
    now := s.now + latency
    net := rest
    trace := s.trace ++ [Event.log LogLine.tokenStart,
      Event.get (tokenURL s.m.CorpID s.m.CorpSecret), Event.log LogLine.tokenConnectOk,
      Event.log LogLine.tokenReadOk, Event.log (LogLine.tokenOk token)] }

/-- The log lines `Send` writes for a parsed response. -/
def verdictLines (msg : String) (json : Json) : List Event :=
  (if (json.Get "errcode").MustInt = 0 then [Event.log (LogLine.sendOk msg)]
    else [Event.log (LogLine.sendFail (json.Get "errmsg").MustString)]) ++
  (if ((json.Get "invaliduser").MustString).length > 0 then
    [Event.log (LogLine.invalidUser (json.Get "invaliduser").MustString)] else [])

/-- The tokens installed by a trace: one per log line of a successful refresh. -/
def installs (evs : List Event) : List String :=
  evs.filterMap fun e =>
    match e with
    | Event.log (LogLine.tokenOk token) => some token
    | _ => none

/-- A network script of transport failures with the given latencies. -/
def failures (latencies : List Nat) : List (Nat × HttpResult) :=
  latencies.map fun l => (l, HttpResult.transportError)

/-- A network script of completely read responses, given as latency and body. -/
def answers (bodies : List (Nat × String)) : List (Nat × HttpResult) :=
  bodies.map fun p => (p.1, HttpResult.response p.2 true)

/-- A request followed by a five-second sleep, once per element of `l`. -/
def retried {α : Type} (l : List α) (request : Event) : List Event :=
  (l.map fun _ => [request, Event.sleep (5 * second)]).flatten

/-- The part of `GetAccessToken` after `http.Get`, on the result of the request, with
`fuel` left for the nested calls. -/
def tokenAfterRequest (lib : Lib) (fuel : Nat) (r : HttpResult × State) : Outcome × State :=
  match r with
  | (HttpResult.transportError, s) =>
    let s := ((s.log LogLine.tokenConnectFail).log LogLine.tokenReconnect).Sleep (5 * second)
    match GetAccessToken lib fuel s with
    | (Outcome.returned, s) => (Outcome.panicked, s)
    | (o, s) => (o, s)
  | (HttpResult.response body readOk, s) =>
    let s := s.log LogLine.tokenConnectOk
    let afterRead : Outcome × State :=
      if readOk then (Outcome.returned, s.log LogLine.tokenReadOk)
      else GetAccessToken lib fuel
        (((s.log LogLine.tokenReadFail).log LogLine.tokenReconnect).Sleep (5 * second))
    match afterRead with
    | (Outcome.returned, s) =>
      match lib.NewJson body with
      | none => (Outcome.panicked, s)
      | some json =>
        let errcode := (json.Get "errcode").MustInt
        let errmsg := (json.Get "errmsg").MustString
        if errcode = 0 then
          let s := { s with m := { s.m with
            AccessToken := (json.Get "access_token").MustString
            AccessTokenCreatAt := s.now } }
          (Outcome.returned, s.log (LogLine.tokenOk s.m.AccessToken))
        else
          GetAccessToken lib fuel
            (((s.log (LogLine.tokenFail errmsg)).log LogLine.tokenRetry).Sleep (5 * second))
    | (o, s) => (o, s)

/-- The expiry check that opens `Send`, with its outcome. -/
def sendCheck (lib : Lib) (fuel : Nat) (s : State) : Outcome × State :=
  let s := s.log LogLine.checkToken
  let currentTime := s.now
  if currentTime > s.m.AccessTokenCreatAt + timeoutDuration then
    GetAccessToken lib fuel (s.log (LogLine.tokenTimeout
      ((s.m.AccessTokenCreatAt + timeoutDuration : Nat) - (currentTime : Int))))
  else (Outcome.returned, s.log LogLine.tokenNotTimeout)

/-- The part of `Send` after the expiry check, on the outcome of the check, with `fuel`
left for the nested calls. -/
def sendAfterCheck (lib : Lib) (fuel : Nat) (msg : String) (checked : Outcome × State) :
    Outcome × State :=
  match checked with
  | (Outcome.returned, s) =>
    let s := s.log LogLine.startSend
    let api := sendURL s.m.AccessToken
    match s.request (Event.post api msg) with
    | (HttpResult.transportError, s) =>
      let s := (s.log LogLine.sendConnectFail).Sleep (5 * second)
      match Send lib fuel msg s with
      | (Outcome.returned, s) => (Outcome.panicked, s)
      | (o, s) => (o, s)
    | (HttpResult.response body readOk, s) =>
      let afterRead : Outcome × State :=
        if readOk then (Outcome.returned, s)
        else Send lib fuel msg ((s.log LogLine.sendReadFail).Sleep (5 * second))
      match afterRead with
      | (Outcome.returned, s) =>
        match lib.NewJson body with
        | none => (Outcome.panicked, s)
        | some json =>
          let errcode := (json.Get "errcode").MustInt
          let errmsg := (json.Get "errmsg").MustString
          let invalidateUser := (json.Get "invaliduser").MustString
          let s := if errcode = 0 then s.log (LogLine.sendOk msg)
            else s.log (LogLine.sendFail errmsg)
          let s := if invalidateUser.length > 0 then s.log (LogLine.invalidUser invalidateUser)
            else s
          (Outcome.returned, s)
      | (o, s) => (o, s)
  | (o, s) => (o, s)

/-- The state in which the retry of `Send` starts when the POST made after a check that
ended in `g` has failed. -/
def retryAfterPost (g : State) (msg : String) (latency : Nat)
    (rest : List (Nat × HttpResult)) : State :=
  { g with
    now := g.now + latency + 5 * second
    net := rest
    trace := g.trace ++ [Event.log LogLine.startSend, Event.post (sendURL g.m.AccessToken) msg,
      Event.log LogLine.sendConnectFail, Event.sleep (5 * second)] }

/-- The state of `Send` after an expiry check that found the credential fresh. -/
def checkedFresh (s : State) : State :=
  (s.log LogLine.checkToken).log LogLine.tokenNotTimeout

/-- The state in which `Send` calls `GetAccessToken` when it found the credential expired. -/
def checkedExpired (s : State) : State :=
  (s.log LogLine.checkToken).log (LogLine.tokenTimeout
    ((s.m.AccessTokenCreatAt + timeoutDuration : Nat) - (s.now : Int)))

/-! ## The event sequence of a payload, as the specification words it -/

/-- The run the specification describes for the events `alerts`: for each element, in
order, one `Send` of the message built from it, then a sleep of one second. -/
def deliverAll (lib : Lib) (conf : Conf) (fuel : Nat) : List Json → State → State
  | [], s => s
  | a :: rest, s =>
    deliverAll lib conf fuel rest
      ((Send lib fuel (buildMsg conf (readAlert a) (lib.localTime s.now)) s).2.Sleep (1 * second))

/-- Every `Send` of the run `deliverAll` returns. -/
def allReturn (lib : Lib) (conf : Conf) (fuel : Nat) : List Json → State → Prop
  | [], _ => True
  | a :: rest, s =>
    (Send lib fuel (buildMsg conf (readAlert a) (lib.localTime s.now)) s).1 = Outcome.returned ∧
    allReturn lib conf fuel rest
      ((Send lib fuel (buildMsg conf (readAlert a) (lib.localTime s.now)) s).2.Sleep (1 * second))

/-- Whether every `Send` of the run returns can be computed. -/
instance allReturn.instDecidable (lib : Lib) (conf : Conf) (fuel : Nat) :
    ∀ (alerts : List Json) (s : State), Decidable (allReturn lib conf fuel alerts s)
  | [], _ => isTrue trivial
  | a :: rest, s =>
    @instDecidableAnd _ _ inferInstance
      (allReturn.instDecidable lib conf fuel rest
        ((Send lib fuel (buildMsg conf (readAlert a) (lib.localTime s.now)) s).2.Sleep
          (1 * second)))

/-- The value found in `j` by following the keys of `path` through nested objects. -/
def valueAt : Json → List String → Option Json
  | j, [] => some j
  | Json.obj kvs, k :: ks =>
    match kvs.lookup k with
    | some v => valueAt v ks
    | none => none
  | _, _ :: _ => none

/-- The string found at `path`, the empty string when the path is absent or holds a
value that is not a string. -/
def textAt (j : Json) (path : List String) : String :=
  match valueAt j path with
  | some (Json.str s) => s
  | _ => ""

/-! ## JSON texts, read as RFC 8259 words them -/

/-- Where the reader stands inside a number. -/
inductive NumPos where
  | minus
  | zero
  | int
  | dot
  | frac
  | e
  | esign
  | exp

/-- An enclosing array with its elements so far, or an enclosing object with its members
so far and the key whose value is being read. -/
inductive Frame where
  | arr (done : List Json)
  | obj (done : List (String × Json)) (key : String)

/-- Where the reader stands. A string belongs to `owner`: the members of the object it
is a key of, or `none` when it is a value. -/
inductive Pos where
  | value
  | arrStart
  | objStart
  | key (done : List (String × Json))
  | colon (done : List (String × Json)) (key : String)
  | after (v : Json)
  | str (acc : List Char) (owner : Option (List (String × Json)))
  | esc (acc : List Char) (owner : Option (List (String × Json)))
  | uni (acc : List Char) (owner : Option (List (String × Json))) (hex : List Char)
  | num (acc : List Char) (p : NumPos)
  | lit (v : Json) (rest : List Char)

/-- The reader: its position and the enclosing arrays and objects, innermost first. -/
structure Reader where
  pos : Pos
  stack : List Frame

/-- JSON whitespace. -/
def isSpace (c : Char) : Bool := c = ' ' || c = '\t' || c = '\n' || c = '\r'

/-- A character that may stand unescaped inside a JSON string. -/
def plainChar (c : Char) : Bool := c ≠ '"' && c ≠ '\\' && decide (32 ≤ c.toNat)

/-- Value of a hexadecimal digit, if it is one. -/
def hexVal (c : Char) : Option Nat :=
  if isDigit c then some (c.toNat - 48)
  else if 97 ≤ c.toNat ∧ c.toNat ≤ 102 then some (c.toNat - 87)
  else if 65 ≤ c.toNat ∧ c.toNat ≤ 70 then some (c.toNat - 55)
  else none

/-- Adds a member to an object; a repeated key keeps the later value. -/
def putMember (done : List (String × Json)) (k : String) (v : Json) : List (String × Json) :=
  done.filter (fun p => p.1 != k) ++ [(k, v)]

/-- The first character of a value. -/
def startValue (stack : List Frame) (c : Char) : Option Reader :=
  if c = '"' then some ⟨Pos.str [] none, stack⟩
  else if c = '\x7b' then some ⟨Pos.objStart, stack⟩
  else if c = '[' then some ⟨Pos.arrStart, Frame.arr [] :: stack⟩
  else if c = '-' then some ⟨Pos.num [c] NumPos.minus, stack⟩
  else if c = '0' then some ⟨Pos.num [c] NumPos.zero, stack⟩
  else if isDigit c then some ⟨Pos.num [c] NumPos.int, stack⟩
  else if c = 't' then some ⟨Pos.lit (Json.bool true) ['r', 'u', 'e'], stack⟩
  else if c = 'f' then some ⟨Pos.lit (Json.bool false) ['a', 'l', 's', 'e'], stack⟩
  else if c = 'n' then some ⟨Pos.lit Json.null ['u', 'l', 'l'], stack⟩
  else none

/-- The character after the complete value `v`. -/
def afterValue (v : Json) (stack : List Frame) (c : Char) : Option Reader :=
  if isSpace c then some ⟨Pos.after v, stack⟩
  else if c = ',' then
    match stack with
    | Frame.arr done :: st => some ⟨Pos.value, Frame.arr (done ++ [v]) :: st⟩
    | Frame.obj done k :: st => some ⟨Pos.key (putMember done k v), st⟩
    | [] => none
  else if c = ']' then
    match stack with
    | Frame.arr done :: st => some ⟨Pos.after (Json.arr (done ++ [v])), st⟩
    | _ => none
  else if c = '\x7d' then
    match stack with
    | Frame.obj done k :: st => some ⟨Pos.after (Json.obj (putMember done k v)), st⟩
    | _ => none
  else none

/-- The character `c` inside the number whose text so far is `acc`. -/
def numStep (acc : List Char) (p : NumPos) (stack : List Frame) (c : Char) : Option Reader :=
  match p with
  | NumPos.minus =>
    if c = '0' then some ⟨Pos.num (acc ++ [c]) NumPos.zero, stack⟩
    else if isDigit c then some ⟨Pos.num (acc ++ [c]) NumPos.int, stack⟩
    else none
  | NumPos.zero =>
    if c = '.' then some ⟨Pos.num (acc ++ [c]) NumPos.dot, stack⟩
    else if c = 'e' ∨ c = 'E' then some ⟨Pos.num (acc ++ [c]) NumPos.e, stack⟩
    else afterValue (Json.num (String.mk acc)) stack c
  | NumPos.int =>
    if isDigit c then some ⟨Pos.num (acc ++ [c]) NumPos.int, stack⟩
    else if c = '.' then some ⟨Pos.num (acc ++ [c]) NumPos.dot, stack⟩
    else if c = 'e' ∨ c = 'E' then some ⟨Pos.num (acc ++ [c]) NumPos.e, stack⟩
    else afterValue (Json.num (String.mk acc)) stack c
  | NumPos.dot =>
    if isDigit c then some ⟨Pos.num (acc ++ [c]) NumPos.frac, stack⟩ else none
  | NumPos.frac =>
    if isDigit c then some ⟨Pos.num (acc ++ [c]) NumPos.frac, stack⟩
    else if c = 'e' ∨ c = 'E' then some ⟨Pos.num (acc ++ [c]) NumPos.e, stack⟩
    else afterValue (Json.num (String.mk acc)) stack c
  | NumPos.e =>
    if c = '+' ∨ c = '-' then some ⟨Pos.num (acc ++ [c]) NumPos.esign, stack⟩
    else if isDigit c then some ⟨Pos.num (acc ++ [c]) NumPos.exp, stack⟩
    else none
  | NumPos.esign =>
    if isDigit c then some ⟨Pos.num (acc ++ [c]) NumPos.exp, stack⟩ else none
  | NumPos.exp =>
    if isDigit c then some ⟨Pos.num (acc ++ [c]) NumPos.exp, stack⟩
    else afterValue (Json.num (String.mk acc)) stack c

/-- The character after a backslash. -/
def escStep (acc : List Char) (owner : Option (List (String × Json))) (stack : List Frame)
    (c : Char) : Option Reader :=
  if c = '"' ∨ c = '\\' ∨ c = '/' then some ⟨Pos.str (acc ++ [c]) owner, stack⟩
  else if c = 'b' then some ⟨Pos.str (acc ++ [Char.ofNat 8]) owner, stack⟩
  else if c = 'f' then some ⟨Pos.str (acc ++ [Char.ofNat 12]) owner, stack⟩
  else if c = 'n' then some ⟨Pos.str (acc ++ ['\n']) owner, stack⟩
  else if c = 'r' then some ⟨Pos.str (acc ++ ['\r']) owner, stack⟩
  else if c = 't' then some ⟨Pos.str (acc ++ ['\t']) owner, stack⟩
  else if c = 'u' then some ⟨Pos.uni acc owner [], stack⟩
  else none

/-- One character of a JSON text; `none` when the text is malformed there. -/
def readChar (r : Reader) (c : Char) : Option Reader :=
  match r.pos with
  | Pos.value => if isSpace c then some r else startValue r.stack c
  | Pos.arrStart =>
    if isSpace c then some r
    else if c = ']' then
      match r.stack with
      | Frame.arr _ :: st => some ⟨Pos.after (Json.arr []), st⟩
      | _ => none
    else startValue r.stack c
  | Pos.objStart =>
    if isSpace c then some r
    else if c = '\x7d' then some ⟨Pos.after (Json.obj []), r.stack⟩
    else if c = '"' then some ⟨Pos.str [] (some []), r.stack⟩
    else none
  | Pos.key done =>
    if isSpace c then some r
    else if c = '"' then some ⟨Pos.str [] (some done), r.stack⟩
    else none
  | Pos.colon done k =>
    if isSpace c then some r
    else if c = ':' then some ⟨Pos.value, Frame.obj done k :: r.stack⟩
    else none
  | Pos.after v => afterValue v r.stack c
  | Pos.str acc owner =>
    if c = '"' then
      match owner with
      | none => some ⟨Pos.after (Json.str (String.mk acc)), r.stack⟩
      | some done => some ⟨Pos.colon done (String.mk acc), r.stack⟩
    else if c = '\\' then some ⟨Pos.esc acc owner, r.stack⟩
    else if c.toNat < 32 then none
    else some ⟨Pos.str (acc ++ [c]) owner, r.stack⟩
  | Pos.esc acc owner => escStep acc owner r.stack c
  | Pos.uni acc owner hex =>
    match hexVal c with
    | none => none
    | some _ =>
      if hex.length = 3 then
        some ⟨Pos.str (acc ++ [Char.ofNat (((hex ++ [c]).filterMap hexVal).foldl
          (fun n d => 16 * n + d) 0)]) owner, r.stack⟩
      else some ⟨Pos.uni acc owner (hex ++ [c]), r.stack⟩
  | Pos.num acc p => numStep acc p r.stack c
  | Pos.lit v rest =>
    match rest with
    | [] => none
    | x :: xs =>
      if c = x then (if xs.isEmpty then some ⟨Pos.after v, r.stack⟩ else some ⟨Pos.lit v xs, r.stack⟩)
      else none

/-- Reads the characters of `text` from the reader `r`. -/
def readChars : Reader → List Char → Option Reader
  | r, [] => some r
  | r, c :: cs =>
    match readChar r c with
    | none => none
    | some r1 => readChars r1 cs

/-- The value read when the text ends: one complete value with nothing left open. -/
def readEnd (r : Reader) : Option Json :=
  match r.stack, r.pos with
  | [], Pos.after v => some v
  | [], Pos.num acc NumPos.zero => some (Json.num (String.mk acc))
  | [], Pos.num acc NumPos.int => some (Json.num (String.mk acc))
  | [], Pos.num acc NumPos.frac => some (Json.num (String.mk acc))
  | [], Pos.num acc NumPos.exp => some (Json.num (String.mk acc))
  | _, _ => none

/-- The value of a JSON text, `none` when the text is not well-formed JSON. -/
def decodeJson (text : String) : Option Json :=
  match readChars ⟨Pos.value, []⟩ text.data with
  | none => none
  | some r => readEnd r

/-- The message object of the send endpoint for the recipient `toUser` and the text
`content`. -/
def messageObject (toUser content : String) : Json :=
  Json.obj [("touser", Json.str toUser), ("toparty", Json.str "PartyID1 | PartyID2"),
    ("totag", Json.str "TagID1 | TagID2"), ("msgtype", Json.str "text"),
    ("agentid", Json.num "1000002"), ("text", Json.obj [("content", Json.str content)])]

/-- The text of a message: the fields of the event between the fixed words. -/
def contentText (status alertName project env hostName job service level
    startAt sendAt : String) : String :=
  "[" ++ status ++ "]-" ++ alertName ++ "</br>Project: " ++ project ++ "</br>Env: " ++ env ++
  "</br>Hostname: " ++ hostName ++ "</br>Job: " ++ job ++ "</br>Service: " ++ service ++
  "</br>Level: " ++ level ++ "</br>StartAt: " ++ startAt ++ "</br>SendAt: " ++ sendAt

/-- A text all of whose characters may stand unescaped inside a JSON string. -/
def plainText (s : String) : Prop := ∀ c ∈ s.data, plainChar c = true

/-- Whether a text is plain can be computed. -/
instance plainText.instDecidable (s : String) : Decidable (plainText s) :=
  inferInstanceAs (Decidable (∀ c ∈ s.data, plainChar c = true))

/-- An alert whose name holds double quotes. -/
def quotedAlert : Json :=
  Json.obj [("status", Json.str "firing"),
    ("labels", Json.obj [("alertname", Json.str "disk \"sda\" full"), ("level", Json.str "1")]),
    ("startsAt", Json.str "2024-01-01T00:00:00.0+00:00")]

/-! ## A concrete environment for the worked examples -/

/-- The token-endpoint answer `{"errcode":0,"access_token":"X"}`. -/
def grantText : String := "\x7b\"errcode\":0,\"access_token\":\"X\"\x7d"

/-- The decoded `grantText`. -/
def grantJson : Json := Json.obj [("errcode", Json.num "0"), ("access_token", Json.str "X")]

/-- The token-endpoint answer `{"errcode":40013,"errmsg":"invalid corpid"}`. -/
def refusalText : String := "\x7b\"errcode\":40013,\"errmsg\":\"invalid corpid\"\x7d"

/-- The decoded `refusalText`. -/
def refusalJson : Json :=
  Json.obj [("errcode", Json.num "40013"), ("errmsg", Json.str "invalid corpid")]

/-- The send-endpoint answer `{"errcode":0,"errmsg":"ok"}`. -/
def acceptedText : String := "\x7b\"errcode\":0,\"errmsg\":\"ok\"\x7d"

/-- The decoded `acceptedText`. -/
def acceptedJson : Json := Json.obj [("errcode", Json.num "0"), ("errmsg", Json.str "ok")]

/-- The send-endpoint answer `{"errcode":75001,"errmsg":"invalid param"}`. -/
def rejectedText : String := "\x7b\"errcode\":75001,\"errmsg\":\"invalid param\"\x7d"

/-- The decoded `rejectedText`. -/
def rejectedJson : Json :=
  Json.obj [("errcode", Json.num "75001"), ("errmsg", Json.str "invalid param")]

/-- The payload of the decoding example of the specification. -/
def alertText : String :=
  "\x7b\"alerts\":[\x7b\"status\":\"firing\",\"labels\":\x7b\"alertname\":\"A\",\"severity\":\"1\"\x7d, \"startsAt\":\"2024-01-01T00:00:00.0+00:00\"\x7d]\x7d"

/-- The decoded `alertText`. -/
def alertJson : Json :=
  Json.obj [("alerts", Json.arr [Json.obj [("status", Json.str "firing"),
    ("labels", Json.obj [("alertname", Json.str "A"), ("severity", Json.str "1")]),
    ("startsAt", Json.str "2024-01-01T00:00:00.0+00:00")]])]

/-- An environment whose JSON decoder is `decodeJson` and whose local zone shows
10:00:00 on 2 January 2024 at every clock reading. -/
def demoLib : Lib where
  NewJson := decodeJson
  localTime := fun _ => ⟨2024, 1, 2, 10, 0, 0, 0, 0⟩

/-- A configuration with recipients for the levels 1, 2 and 3. -/
def demoConf : Conf :=
  { CorpID := "corp", CorpSecret := "secret", AgentID := "1000002"
    Level := [("1", "alice"), ("2", "bob"), ("3", "carol")] }

/-- A receiver holding the token `T0`, issued 1000 seconds after the zero time. -/
def demoMSG : AlertMSG :=
  { MCH := [], CorpID := "corp", CorpSecret := "secret", AgentID := "1000002"
    AccessToken := "T0", AccessTokenCreatAt := 1000 * second }

/-- The state with receiver `demoMSG` at clock reading `now`, facing the network `net`. -/
def demoState (now : Nat) (net : List (Nat × HttpResult)) : State :=
  { m := demoMSG, now := now, net := net, trace := [] }

/-- The outcomes a call of `GetAccessToken` or `Send` can have: neither of them exits
the process or reads the channel. -/
def Outcome.isLocal : Outcome → Bool
  | Outcome.returned => true
  | Outcome.panicked => true
  | Outcome.unfinished => true
  | _ => false

/-! ## Traces only grow -/

theorem log_trace (s : State) (l : LogLine) : (s.log l).trace = s.trace ++ [Event.log l] := rfl

theorem Sleep_trace (s : State) (d : Nat) : (s.Sleep d).trace = s.trace ++ [Event.sleep d] := rfl

theorem request_trace (s : State) (e : Event) : (s.request e).2.trace = s.trace ++ [e] := by
  unfold State.request
  split <;> rfl

theorem GetAccessToken_succ (lib : Lib) (fuel : Nat) (s : State) :
    GetAccessToken lib (fuel + 1) s =
      tokenAfterRequest lib fuel
        ((s.log LogLine.tokenStart).request (Event.get (tokenURL s.m.CorpID s.m.CorpSecret))) := by
  rw [GetAccessToken]
  rfl

theorem Send_succ (lib : Lib) (fuel : Nat) (msg : String) (s : State) :
    Send lib (fuel + 1) msg s = sendAfterCheck lib fuel msg (sendCheck lib fuel s) := by
  rw [Send]
  rfl

theorem tokenAfterRequest_trace_of (lib : Lib) (fuel : Nat)
    (ih : ∀ s : State, s.trace <+: (GetAccessToken lib fuel s).2.trace)
    (r : HttpResult × State) : r.2.trace <+: (tokenAfterRequest lib fuel r).2.trace := by
  obtain ⟨res, s1⟩ := r
  cases res with
  | transportError =>
    simp only [tokenAfterRequest]
    have h2 := ih (((s1.log LogLine.tokenConnectFail).log LogLine.tokenReconnect).Sleep (5 * second))
    rcases hrec : GetAccessToken lib fuel
      (((s1.log LogLine.tokenConnectFail).log LogLine.tokenReconnect).Sleep (5 * second)) with ⟨o, s2⟩
    rw [hrec] at h2
    simp only [Sleep_trace, log_trace, List.append_assoc] at h2
    have h3 : s1.trace <+: s2.trace := (List.prefix_append _ _).trans h2
    cases o <;> exact h3
  | response body readOk =>
    simp only [tokenAfterRequest]
    have key : ∀ (o : Outcome) (s2 : State), s1.trace <+: s2.trace →
        s1.trace <+: (match (o, s2) with
          | (Outcome.returned, s) =>
            match lib.NewJson body with
            | none => (Outcome.panicked, s)
            | some json =>
              if (json.Get "errcode").MustInt = 0 then
                (Outcome.returned,
                  State.log { s with m := { s.m with
                    AccessToken := (json.Get "access_token").MustString
                    AccessTokenCreatAt := s.now } }
                    (LogLine.tokenOk (json.Get "access_token").MustString))
              else
                GetAccessToken lib fuel
                  (((s.log (LogLine.tokenFail (json.Get "errmsg").MustString)).log
                    LogLine.tokenRetry).Sleep (5 * second))
          | (o, s) => (o, s)).2.trace := by
      intro o s2 h
      cases o
      case returned =>
        simp only
        cases lib.NewJson body with
        | none => exact h
        | some json =>
          simp only
          split
          · simp only [log_trace]
            exact h.trans (List.prefix_append _ _)
          · refine h.trans (List.IsPrefix.trans ?_ (ih _))
            simp only [Sleep_trace, log_trace, List.append_assoc]
            exact List.prefix_append _ _
      all_goals exact h
    cases readOk with
    | true =>
      refine key Outcome.returned ((s1.log LogLine.tokenConnectOk).log LogLine.tokenReadOk) ?_
      simp only [log_trace, List.append_assoc]
      exact List.prefix_append _ _
    | false =>
      simp only [Bool.false_eq_true, if_false]
      rcases hrec : GetAccessToken lib fuel
        ((((s1.log LogLine.tokenConnectOk).log LogLine.tokenReadFail).log
          LogLine.tokenReconnect).Sleep (5 * second)) with ⟨o, s2⟩
      refine key o s2 ?_
      have h2 := ih ((((s1.log LogLine.tokenConnectOk).log LogLine.tokenReadFail).log
          LogLine.tokenReconnect).Sleep (5 * second))
      rw [hrec] at h2
      simp only [Sleep_trace, log_trace, List.append_assoc] at h2
      exact (List.prefix_append _ _).trans h2

theorem GetAccessToken_trace (lib : Lib) :
    ∀ (fuel : Nat) (s : State), s.trace <+: (GetAccessToken lib fuel s).2.trace := by
  intro fuel
  induction fuel with
  | zero => intro s; simp [GetAccessToken]
  | succ n ih =>
    intro s
    rw [GetAccessToken_succ]
    refine List.IsPrefix.trans ?_ (tokenAfterRequest_trace_of lib n ih _)
    rw [request_trace, log_trace, List.append_assoc]
    exact List.prefix_append _ _

theorem tokenAfterRequest_trace (lib : Lib) (fuel : Nat) (r : HttpResult × State) :
    r.2.trace <+: (tokenAfterRequest lib fuel r).2.trace :=
  tokenAfterRequest_trace_of lib fuel (GetAccessToken_trace lib fuel) r

/-- The first two events of a refresh are its opening log line and its GET. -/
theorem GetAccessToken_begins (lib : Lib) (fuel : Nat) (s : State) :
    s.trace ++ [Event.log LogLine.tokenStart, Event.get (tokenURL s.m.CorpID s.m.CorpSecret)] <+:
      (GetAccessToken lib (fuel + 1) s).2.trace := by
  rw [GetAccessToken_succ]
  refine List.IsPrefix.trans ?_ (tokenAfterRequest_trace lib fuel _)
  rw [request_trace, log_trace, List.append_assoc]
  exact List.prefix_rfl

theorem sendAfterCheck_other (lib : Lib) (fuel : Nat) (msg : String) (c : Outcome × State)
    (h : c.1 ≠ Outcome.returned) : sendAfterCheck lib fuel msg c = c := by
  obtain ⟨o, s⟩ := c
  cases o <;> first | rfl | exact absurd rfl h

theorem sendAfterCheck_begins_of (lib : Lib) (fuel : Nat) (msg : String)
    (ih : ∀ s : State, s.trace <+: (Send lib fuel msg s).2.trace) (s0 : State) :
    s0.trace ++ [Event.log LogLine.startSend, Event.post (sendURL s0.m.AccessToken) msg] <+:
      (sendAfterCheck lib fuel msg (Outcome.returned, s0)).2.trace := by
  simp only [sendAfterCheck]
  have hreq := request_trace (s0.log LogLine.startSend)
    (Event.post (sendURL (s0.log LogLine.startSend).m.AccessToken) msg)
  rcases hr : (s0.log LogLine.startSend).request
    (Event.post (sendURL (s0.log LogLine.startSend).m.AccessToken) msg) with ⟨r, s1⟩
  rw [hr] at hreq
  simp only [log_trace, List.append_assoc] at hreq
  have hm : (s0.log LogLine.startSend).m = s0.m := rfl
  rw [hm] at hreq
  simp only [List.singleton_append] at hreq
  rw [← hreq]
  cases r with
  | transportError =>
    simp only
    have h2 := ih ((s1.log LogLine.sendConnectFail).Sleep (5 * second))
    rcases hrec : Send lib fuel msg ((s1.log LogLine.sendConnectFail).Sleep (5 * second))
      with ⟨o, s2⟩
    rw [hrec] at h2
    simp only [Sleep_trace, log_trace, List.append_assoc] at h2
    have h3 : s1.trace <+: s2.trace := (List.prefix_append _ _).trans h2
    cases o <;> exact h3
  | response body readOk =>
    simp only
    have fin : ∀ (o : Outcome) (s2 : State), s1.trace <+: s2.trace →
        s1.trace <+: (match (o, s2) with
          | (Outcome.returned, s) =>
            match lib.NewJson body with
            | none => (Outcome.panicked, s)
            | some json =>
              (Outcome.returned,
                if ((json.Get "invaliduser").MustString).length > 0 then
                  State.log (if (json.Get "errcode").MustInt = 0 then
                      s.log (LogLine.sendOk msg)
                    else s.log (LogLine.sendFail (json.Get "errmsg").MustString))
                    (LogLine.invalidUser (json.Get "invaliduser").MustString)
                else (if (json.Get "errcode").MustInt = 0 then s.log (LogLine.sendOk msg)
                    else s.log (LogLine.sendFail (json.Get "errmsg").MustString)))
          | (o, s) => (o, s)).2.trace := by
      intro o s2 h
      cases o
      case returned =>
        simp only
        cases lib.NewJson body with
        | none => exact h
        | some json =>
          simp only
          split <;> split <;> simp only [log_trace, List.append_assoc] <;>
            exact h.trans (List.prefix_append _ _)
      all_goals exact h
    cases readOk with
    | true => exact fin Outcome.returned s1 List.prefix_rfl
    | false =>
      simp only [Bool.false_eq_true, if_false]
      rcases hrec : Send lib fuel msg ((s1.log LogLine.sendReadFail).Sleep (5 * second))
        with ⟨o, s2⟩
      refine fin o s2 ?_
      have h2 := ih ((s1.log LogLine.sendReadFail).Sleep (5 * second))
      rw [hrec] at h2
      simp only [Sleep_trace, log_trace, List.append_assoc] at h2
      exact (List.prefix_append _ _).trans h2

theorem sendCheck_trace (lib : Lib) (fuel : Nat) (s : State) :
    s.trace <+: (sendCheck lib fuel s).2.trace := by
  unfold sendCheck
  simp only
  split
  · refine List.IsPrefix.trans ?_ (GetAccessToken_trace lib fuel _)
    simp only [log_trace, List.append_assoc]
    exact List.prefix_append _ _
  · simp only [log_trace, List.append_assoc]
    exact List.prefix_append _ _

theorem sendAfterCheck_trace_of (lib : Lib) (fuel : Nat) (msg : String)
    (ih : ∀ s : State, s.trace <+: (Send lib fuel msg s).2.trace) (c : Outcome × State) :
    c.2.trace <+: (sendAfterCheck lib fuel msg c).2.trace := by
  by_cases h : c.1 = Outcome.returned
  · obtain ⟨o, s0⟩ := c
    simp only at h
    subst h
    exact (List.prefix_append _ _).trans (sendAfterCheck_begins_of lib fuel msg ih s0)
  · rw [sendAfterCheck_other lib fuel msg c h]

theorem Send_trace (lib : Lib) :
    ∀ (fuel : Nat) (msg : String) (s : State), s.trace <+: (Send lib fuel msg s).2.trace := by
  intro fuel
  induction fuel with
  | zero => intro msg s; simp [Send]
  | succ n ih =>
    intro msg s
    rw [Send_succ]
    exact (sendCheck_trace lib n s).trans (sendAfterCheck_trace_of lib n msg (ih msg) _)

/-- After a check that returned in the state `s0`, `Send` logs and posts with the
token of `s0`. -/
theorem sendAfterCheck_begins (lib : Lib) (fuel : Nat) (msg : String) (s0 : State) :
    s0.trace ++ [Event.log LogLine.startSend, Event.post (sendURL s0.m.AccessToken) msg] <+:
      (sendAfterCheck lib fuel msg (Outcome.returned, s0)).2.trace :=
  sendAfterCheck_begins_of lib fuel msg (Send_trace lib fuel msg) s0

/-! ## One attempt of each method -/

theorem GetAccessToken_transport (lib : Lib) (fuel : Nat) (s : State) (latency : Nat)
    (rest : List (Nat × HttpResult)) (hnet : s.net = (latency, HttpResult.transportError) :: rest) :
    GetAccessToken lib (fuel + 1) s =
      match GetAccessToken lib fuel (afterGetFailure s latency rest) with
      | (Outcome.returned, t) => (Outcome.panicked, t)
      | (o, t) => (o, t) := by
  simp [GetAccessToken, State.request, State.log, State.Sleep, hnet, afterGetFailure,
    Nat.add_assoc]

theorem GetAccessToken_refused (lib : Lib) (fuel : Nat) (s : State) (latency : Nat)
    (body : String) (rest : List (Nat × HttpResult)) (json : Json)
    (hnet : s.net = (latency, HttpResult.response body true) :: rest)
    (hjson : lib.NewJson body = some json) (hcode : (json.Get "errcode").MustInt ≠ 0) :
    GetAccessToken lib (fuel + 1) s =
      GetAccessToken lib fuel
        (afterTokenRefusal s latency (json.Get "errmsg").MustString rest) := by
  simp [GetAccessToken, State.request, State.log, State.Sleep, hnet, hjson, hcode,
    afterTokenRefusal, Nat.add_assoc]

theorem GetAccessToken_granted (lib : Lib) (fuel : Nat) (s : State) (latency : Nat)
    (body : String) (rest : List (Nat × HttpResult)) (json : Json)
    (hnet : s.net = (latency, HttpResult.response body true) :: rest)
    (hjson : lib.NewJson body = some json) (hcode : (json.Get "errcode").MustInt = 0) :
    GetAccessToken lib (fuel + 1) s =
      (Outcome.returned, afterTokenGrant s latency (json.Get "access_token").MustString rest) := by
  simp [GetAccessToken, State.request, State.log, hnet, hjson, hcode, afterTokenGrant]

/-! ## Runs of retries -/

theorem emitted_of_trace (s t : State) (evs : List Event) (h : t.trace = s.trace ++ evs) :
    emitted s t = evs := by
  simp [emitted, h]

theorem actions_append (a b : List Event) : actions (a ++ b) = actions a ++ actions b := by
  simp [actions]

theorem installs_append (a b : List Event) : installs (a ++ b) = installs a ++ installs b := by
  simp [installs]

theorem GetAccessToken_transport_run (lib : Lib) (fuel latency : Nat) (body : String)
    (rest : List (Nat × HttpResult)) (json : Json)
    (hjson : lib.NewJson body = some json) (hcode : (json.Get "errcode").MustInt = 0) :
    ∀ (latencies : List Nat) (s : State),
      s.net = failures latencies ++ (latency, HttpResult.response body true) :: rest →
      ∃ evs, (GetAccessToken lib (fuel + latencies.length + 1) s) =
          (if latencies = [] then Outcome.returned else Outcome.panicked,
            { m := { s.m with
                AccessToken := (json.Get "access_token").MustString
                AccessTokenCreatAt := s.now + latencies.sum + latencies.length * (5 * second) + latency }
              now := s.now + latencies.sum + latencies.length * (5 * second) + latency
              net := rest
              trace := s.trace ++ evs }) ∧
        actions evs = retried latencies (Event.get (tokenURL s.m.CorpID s.m.CorpSecret)) ++
          [Event.get (tokenURL s.m.CorpID s.m.CorpSecret)] ∧
        installs evs = [(json.Get "access_token").MustString] := by
  intro latencies
  induction latencies with
  | nil =>
    intro s hnet
    simp only [failures, List.map_nil, List.nil_append] at hnet
    refine ⟨[Event.log LogLine.tokenStart,
      Event.get (tokenURL s.m.CorpID s.m.CorpSecret), Event.log LogLine.tokenConnectOk,
      Event.log LogLine.tokenReadOk,
      Event.log (LogLine.tokenOk (json.Get "access_token").MustString)], ?_, ?_, ?_⟩
    · rw [List.length_nil, Nat.add_zero,
        GetAccessToken_granted lib fuel s latency body rest json hnet hjson hcode]
      simp [afterTokenGrant]
    · simp [actions, Event.isLog, retried]
    · simp [installs]
  | cons l ls ih =>
    intro s hnet
    have hnet : s.net = (l, HttpResult.transportError) ::
        (failures ls ++ (latency, HttpResult.response body true) :: rest) := by
      simpa [failures] using hnet
    obtain ⟨evs, hrun, hact, hinst⟩ := ih (afterGetFailure s l
      (failures ls ++ (latency, HttpResult.response body true) :: rest)) rfl
    refine ⟨[Event.log LogLine.tokenStart,
      Event.get (tokenURL s.m.CorpID s.m.CorpSecret), Event.log LogLine.tokenConnectFail,
      Event.log LogLine.tokenReconnect, Event.sleep (5 * second)] ++ evs, ?_, ?_, ?_⟩
    · have hlen : fuel + (l :: ls).length + 1 = (fuel + ls.length + 1) + 1 := by
        simp [List.length_cons]; omega
      rw [hlen, GetAccessToken_transport lib _ s l _ hnet, hrun]
      have hsum : s.now + l + 5 * second + ls.sum + ls.length * (5 * second) + latency =
          s.now + (l :: ls).sum + (l :: ls).length * (5 * second) + latency := by
        simp [List.sum_cons, List.length_cons]; ring
      by_cases hls : ls = [] <;>
        simp [hls, afterGetFailure, hsum, List.append_assoc]
    · rw [actions_append, hact]
      simp [actions, Event.isLog, retried, afterGetFailure]
    · rw [installs_append, hinst]
      simp [installs]

/-! ## Runs of `Send` -/

theorem sendCheck_fresh (lib : Lib) (fuel : Nat) (s : State)
    (hfresh : s.now ≤ s.m.AccessTokenCreatAt + timeoutDuration) :
    sendCheck lib fuel s = (Outcome.returned, checkedFresh s) := by
  have h : ¬ (s.m.AccessTokenCreatAt + timeoutDuration < s.now) := Nat.not_lt.mpr hfresh
  simp [sendCheck, checkedFresh, State.log, h]

theorem sendCheck_expired (lib : Lib) (fuel : Nat) (s : State)
    (hstale : s.m.AccessTokenCreatAt + timeoutDuration < s.now) :
    sendCheck lib fuel s = GetAccessToken lib fuel (checkedExpired s) := by
  simp [sendCheck, checkedExpired, State.log, hstale]

theorem sendAfterCheck_transport (lib : Lib) (fuel : Nat) (msg : String) (g : State)
    (latency : Nat) (rest : List (Nat × HttpResult))
    (hnet : g.net = (latency, HttpResult.transportError) :: rest) :
    sendAfterCheck lib fuel msg (Outcome.returned, g) =
      match Send lib fuel msg (retryAfterPost g msg latency rest) with
      | (Outcome.returned, t) => (Outcome.panicked, t)
      | (o, t) => (o, t) := by
  simp [sendAfterCheck, State.request, State.log, State.Sleep, hnet, retryAfterPost,
    Nat.add_assoc]

theorem sendAfterCheck_answered (lib : Lib) (fuel : Nat) (msg : String) (g : State)
    (latency : Nat) (body : String) (rest : List (Nat × HttpResult))
    (hnet : g.net = (latency, HttpResult.response body true) :: rest) :
    sendAfterCheck lib fuel msg (Outcome.returned, g) =
      match lib.NewJson body with
      | none => (Outcome.panicked, { g with
          now := g.now + latency
          net := rest
          trace := g.trace ++ [Event.log LogLine.startSend,
            Event.post (sendURL g.m.AccessToken) msg] })
      | some json => (Outcome.returned, { g with
          now := g.now + latency
          net := rest
          trace := g.trace ++ [Event.log LogLine.startSend,
            Event.post (sendURL g.m.AccessToken) msg] ++ verdictLines msg json }) := by
  cases hj : lib.NewJson body with
  | none => simp [sendAfterCheck, State.request, State.log, hnet, hj]
  | some json =>
    simp only [sendAfterCheck, State.request, State.log, hnet, hj, verdictLines,
      gt_iff_lt, if_true]
    by_cases hc : (json.Get "errcode").MustInt = 0 <;>
      by_cases hu : 0 < ((json.Get "invaliduser").MustString).length <;>
      simp [hc, hu]

theorem actions_verdictLines (msg : String) (json : Json) : actions (verdictLines msg json) = [] := by
  unfold verdictLines
  by_cases hc : (json.Get "errcode").MustInt = 0 <;>
    by_cases hu : 0 < ((json.Get "invaliduser").MustString).length <;>
    simp [hc, hu, actions, Event.isLog]

theorem sendAfterCheck_run (lib : Lib) (fuel : Nat) (msg : String) (latency : Nat)
    (body : String) (rest : List (Nat × HttpResult)) :
    ∀ (latencies : List Nat) (g : State),
      g.net = failures latencies ++ (latency, HttpResult.response body true) :: rest →
      g.now + latencies.sum + latencies.length * (5 * second) ≤
        g.m.AccessTokenCreatAt + timeoutDuration →
      ∃ evs, (sendAfterCheck lib (fuel + latencies.length) msg (Outcome.returned, g)).2 =
          { g with
            now := g.now + latencies.sum + latencies.length * (5 * second) + latency
            net := rest
            trace := g.trace ++ evs } ∧
        actions evs = retried latencies (Event.post (sendURL g.m.AccessToken) msg) ++
          [Event.post (sendURL g.m.AccessToken) msg] ∧
        (sendAfterCheck lib (fuel + latencies.length) msg (Outcome.returned, g)).1 =
          (if latencies = [] ∧ (lib.NewJson body).isSome = true then Outcome.returned
            else Outcome.panicked) := by
  intro latencies
  induction latencies with
  | nil =>
    intro g hnet _
    simp only [failures, List.map_nil, List.nil_append] at hnet
    rw [List.length_nil, Nat.add_zero, sendAfterCheck_answered lib fuel msg g latency body rest hnet]
    cases lib.NewJson body with
    | none =>
      exact ⟨[Event.log LogLine.startSend, Event.post (sendURL g.m.AccessToken) msg],
        by simp, by simp [actions, Event.isLog, retried], by simp⟩
    | some json =>
      refine ⟨[Event.log LogLine.startSend, Event.post (sendURL g.m.AccessToken) msg] ++
        verdictLines msg json, by simp, ?_, by simp⟩
      rw [actions_append, actions_verdictLines]
      simp [actions, Event.isLog, retried]
  | cons l ls ih =>
    intro g hnet hfresh
    have hnet : g.net = (l, HttpResult.transportError) ::
        (failures ls ++ (latency, HttpResult.response body true) :: rest) := by
      simpa [failures] using hnet
    have hlen : fuel + (l :: ls).length = (fuel + ls.length) + 1 := by
      simp [List.length_cons]; omega
    simp only [List.sum_cons, List.length_cons] at hfresh
    have hf1 : (retryAfterPost g msg l
        (failures ls ++ (latency, HttpResult.response body true) :: rest)).now ≤
        (retryAfterPost g msg l
          (failures ls ++ (latency, HttpResult.response body true) :: rest)).m.AccessTokenCreatAt +
          timeoutDuration := by
      simp only [retryAfterPost]
      have : 0 ≤ ls.sum + ls.length * (5 * second) := Nat.zero_le _
      simp only [second] at *
      omega
    obtain ⟨evs, hrun, hact, hout⟩ := ih (checkedFresh (retryAfterPost g msg l
      (failures ls ++ (latency, HttpResult.response body true) :: rest))) rfl (by
        simp only [checkedFresh, retryAfterPost, State.log]
        simp only [second] at *
        omega)
    rw [hlen, sendAfterCheck_transport lib _ msg g l _ hnet, Send_succ,
      sendCheck_fresh lib _ _ hf1]
    rcases hres : sendAfterCheck lib (fuel + ls.length) msg (Outcome.returned,
      checkedFresh (retryAfterPost g msg l
        (failures ls ++ (latency, HttpResult.response body true) :: rest))) with ⟨o, t⟩
    rw [hres] at hrun hout
    simp only at hrun hout
    refine ⟨[Event.log LogLine.startSend, Event.post (sendURL g.m.AccessToken) msg,
      Event.log LogLine.sendConnectFail, Event.sleep (5 * second),
      Event.log LogLine.checkToken, Event.log LogLine.tokenNotTimeout] ++ evs, ?_, ?_, ?_⟩
    · have hsum : g.now + l + 5 * second + ls.sum + ls.length * (5 * second) + latency =
          g.now + (l :: ls).sum + (l :: ls).length * (5 * second) + latency := by
        simp [List.sum_cons, List.length_cons]; ring
      have ht : (match (o, t) with
          | (Outcome.returned, t) => (Outcome.panicked, t)
          | (o, t) => (o, t)).2 = t := by cases o <;> rfl
      rw [ht, hrun]
      simp [checkedFresh, retryAfterPost, State.log, hsum, List.append_assoc]
    · rw [actions_append, hact]
      simp [actions, Event.isLog, retried, checkedFresh, retryAfterPost, State.log]
    · rw [hout]
      by_cases hc : ls = [] ∧ (lib.NewJson body).isSome = true <;> simp [hc]


theorem GetAccessToken_refusal_run (lib : Lib) (fuel latency : Nat) (body : String)
    (rest : List (Nat × HttpResult)) (json : Json)
    (hjson : lib.NewJson body = some json) (hcode : (json.Get "errcode").MustInt = 0) :
    ∀ (bad : List (Nat × String)) (s : State),
      (∀ p ∈ bad, ∃ j, lib.NewJson p.2 = some j ∧ (j.Get "errcode").MustInt ≠ 0) →
      s.net = answers bad ++ (latency, HttpResult.response body true) :: rest →
      ∃ evs, (GetAccessToken lib (fuel + bad.length + 1) s) =
          (Outcome.returned,
            { m := { s.m with
                AccessToken := (json.Get "access_token").MustString
                AccessTokenCreatAt :=
                  s.now + (bad.map Prod.fst).sum + bad.length * (5 * second) + latency }
              now := s.now + (bad.map Prod.fst).sum + bad.length * (5 * second) + latency
              net := rest
              trace := s.trace ++ evs }) ∧
        actions evs = retried bad (Event.get (tokenURL s.m.CorpID s.m.CorpSecret)) ++
          [Event.get (tokenURL s.m.CorpID s.m.CorpSecret)] ∧
        installs evs = [(json.Get "access_token").MustString] := by
  intro bad
  induction bad with
  | nil =>
    intro s _ hnet
    simp only [answers, List.map_nil, List.nil_append] at hnet
    refine ⟨[Event.log LogLine.tokenStart,
      Event.get (tokenURL s.m.CorpID s.m.CorpSecret), Event.log LogLine.tokenConnectOk,
      Event.log LogLine.tokenReadOk,
      Event.log (LogLine.tokenOk (json.Get "access_token").MustString)], ?_, ?_, ?_⟩
    · rw [List.length_nil, Nat.add_zero,
        GetAccessToken_granted lib fuel s latency body rest json hnet hjson hcode]
      simp [afterTokenGrant]
    · simp [actions, Event.isLog, retried]
    · simp [installs]
  | cons p ps ih =>
    intro s hbad hnet
    have hnet : s.net = (p.1, HttpResult.response p.2 true) ::
        (answers ps ++ (latency, HttpResult.response body true) :: rest) := by
      simpa [answers] using hnet
    obtain ⟨j, hj, hjc⟩ := hbad p (List.mem_cons_self _ _)
    obtain ⟨evs, hrun, hact, hinst⟩ := ih (afterTokenRefusal s p.1 (j.Get "errmsg").MustString
      (answers ps ++ (latency, HttpResult.response body true) :: rest))
      (fun q hq => hbad q (List.mem_cons_of_mem _ hq)) rfl
    refine ⟨[Event.log LogLine.tokenStart,
      Event.get (tokenURL s.m.CorpID s.m.CorpSecret), Event.log LogLine.tokenConnectOk,
      Event.log LogLine.tokenReadOk, Event.log (LogLine.tokenFail (j.Get "errmsg").MustString),
      Event.log LogLine.tokenRetry, Event.sleep (5 * second)] ++ evs, ?_, ?_, ?_⟩
    · have hlen : fuel + (p :: ps).length + 1 = (fuel + ps.length + 1) + 1 := by
        simp [List.length_cons]; omega
      rw [hlen, GetAccessToken_refused lib _ s p.1 p.2 _ j hnet hj hjc, hrun]
      have hsum : s.now + p.1 + 5 * second + (ps.map Prod.fst).sum + ps.length * (5 * second) +
          latency = s.now + ((p :: ps).map Prod.fst).sum + (p :: ps).length * (5 * second) +
          latency := by
        simp [List.sum_cons, List.length_cons]; ring
      simp [afterTokenRefusal, hsum, List.append_assoc]
    · rw [actions_append, hact]
      simp [actions, Event.isLog, retried, afterTokenRefusal]
    · rw [installs_append, hinst]
      simp [installs]

/-! ## What `Send` does first -/

theorem firstRequest_of_begin (s t : State) (pre : List Event) (e : Event)
    (h : s.trace ++ pre <+: t.trace) (he : firstRequest pre = some e) :
    firstRequest (emitted s t) = some e := by
  obtain ⟨more, hmore⟩ := h
  have hem : emitted s t = pre ++ more := by
    simp [emitted, ← hmore, List.append_assoc]
  rw [hem]
  unfold firstRequest requests at *
  rw [List.filter_append]
  cases hf : List.filter Event.isRequest pre with
  | nil => rw [hf] at he; simp at he
  | cons a as => rw [hf] at he; simpa using he

theorem Send_fresh_begins (lib : Lib) (fuel : Nat) (msg : String) (s : State)
    (hfresh : s.now ≤ s.m.AccessTokenCreatAt + timeoutDuration) :
    s.trace ++ [Event.log LogLine.checkToken, Event.log LogLine.tokenNotTimeout,
        Event.log LogLine.startSend, Event.post (sendURL s.m.AccessToken) msg] <+:
      (Send lib (fuel + 1) msg s).2.trace := by
  rw [Send_succ, sendCheck_fresh lib fuel s hfresh]
  have h := sendAfterCheck_begins lib fuel msg (checkedFresh s)
  simpa [checkedFresh, State.log, List.append_assoc] using h

theorem Send_expired_begins (lib : Lib) (fuel : Nat) (msg : String) (s : State)
    (hstale : s.m.AccessTokenCreatAt + timeoutDuration < s.now) :
    s.trace ++ [Event.log LogLine.checkToken,
        Event.log (LogLine.tokenTimeout
          ((s.m.AccessTokenCreatAt + timeoutDuration : Nat) - (s.now : Int))),
        Event.log LogLine.tokenStart, Event.get (tokenURL s.m.CorpID s.m.CorpSecret)] <+:
      (Send lib (fuel + 2) msg s).2.trace := by
  rw [Send_succ, sendCheck_expired lib (fuel + 1) s hstale]
  have h1 := GetAccessToken_begins lib fuel (checkedExpired s)
  have h2 := sendAfterCheck_trace_of lib (fuel + 1) msg (Send_trace lib (fuel + 1) msg)
    (GetAccessToken lib (fuel + 1) (checkedExpired s))
  have h3 := h1.trans h2
  simpa [checkedExpired, State.log, List.append_assoc] using h3


theorem requests_actions (evs : List Event) : requests (actions evs) = requests evs := by
  unfold requests actions
  rw [List.filter_filter]
  congr 1
  funext e
  cases e <;> rfl

theorem Send_fresh_answered_run (lib : Lib) (fuel : Nat) (msg : String) (s : State)
    (latency : Nat) (body : String) (rest : List (Nat × HttpResult))
    (hfresh : s.now ≤ s.m.AccessTokenCreatAt + timeoutDuration)
    (hnet : s.net = (latency, HttpResult.response body true) :: rest) :
    requests (emitted s (Send lib (fuel + 1) msg s).2) =
        [Event.post (sendURL s.m.AccessToken) msg] ∧
      (Send lib (fuel + 1) msg s).2.m = s.m := by
  obtain ⟨evs, hrun, hact, _⟩ := sendAfterCheck_run lib fuel msg latency body rest []
    (checkedFresh s) (by simpa [failures, checkedFresh, State.log] using hnet)
    (by simpa [checkedFresh, State.log] using hfresh)
  rw [Send_succ, sendCheck_fresh lib fuel s hfresh]
  simp only [List.length_nil, Nat.add_zero] at hrun
  rw [hrun]
  constructor
  · rw [emitted_of_trace s _ ([Event.log LogLine.checkToken, Event.log LogLine.tokenNotTimeout]
      ++ evs) (by simp [checkedFresh, State.log, List.append_assoc])]
    rw [← requests_actions, actions_append, hact]
    simp [requests, actions, Event.isRequest, Event.isLog, retried, checkedFresh, State.log]
  · simp [checkedFresh, State.log]

/-! ## Neither method ends the process -/

theorem tokenAfterRequest_isLocal_of (lib : Lib) (fuel : Nat)
    (ih : ∀ s : State, (GetAccessToken lib fuel s).1.isLocal = true)
    (r : HttpResult × State) : (tokenAfterRequest lib fuel r).1.isLocal = true := by
  obtain ⟨res, s1⟩ := r
  cases res with
  | transportError =>
    simp only [tokenAfterRequest]
    have h2 := ih (((s1.log LogLine.tokenConnectFail).log LogLine.tokenReconnect).Sleep (5 * second))
    rcases hrec : GetAccessToken lib fuel
      (((s1.log LogLine.tokenConnectFail).log LogLine.tokenReconnect).Sleep (5 * second)) with ⟨o, s2⟩
    rw [hrec] at h2
    cases o <;> first | rfl | exact h2
  | response body readOk =>
    simp only [tokenAfterRequest]
    have key : ∀ (o : Outcome) (s2 : State), o.isLocal = true →
        (match (o, s2) with
          | (Outcome.returned, s) =>
            match lib.NewJson body with
            | none => (Outcome.panicked, s)
            | some json =>
              if (json.Get "errcode").MustInt = 0 then
                (Outcome.returned,
                  State.log { s with m := { s.m with
                    AccessToken := (json.Get "access_token").MustString
                    AccessTokenCreatAt := s.now } }
                    (LogLine.tokenOk (json.Get "access_token").MustString))
              else
                GetAccessToken lib fuel
                  (((s.log (LogLine.tokenFail (json.Get "errmsg").MustString)).log
                    LogLine.tokenRetry).Sleep (5 * second))
          | (o, s) => (o, s)).1.isLocal = true := by
      intro o s2 h
      cases o
      case returned =>
        simp only
        cases lib.NewJson body with
        | none => rfl
        | some json =>
          simp only
          split
          · rfl
          · exact ih _
      all_goals exact h
    cases readOk with
    | true => exact key Outcome.returned ((s1.log LogLine.tokenConnectOk).log LogLine.tokenReadOk) rfl
    | false =>
      simp only [Bool.false_eq_true, if_false]
      rcases hrec : GetAccessToken lib fuel
        ((((s1.log LogLine.tokenConnectOk).log LogLine.tokenReadFail).log
          LogLine.tokenReconnect).Sleep (5 * second)) with ⟨o, s2⟩
      refine key o s2 ?_
      have h2 := ih ((((s1.log LogLine.tokenConnectOk).log LogLine.tokenReadFail).log
          LogLine.tokenReconnect).Sleep (5 * second))
      rw [hrec] at h2
      exact h2

theorem GetAccessToken_isLocal (lib : Lib) :
    ∀ (fuel : Nat) (s : State), (GetAccessToken lib fuel s).1.isLocal = true := by
  intro fuel
  induction fuel with
  | zero => intro s; rfl
  | succ n ih =>
    intro s
    rw [GetAccessToken_succ]
    exact tokenAfterRequest_isLocal_of lib n ih _

theorem sendCheck_isLocal (lib : Lib) (fuel : Nat) (s : State) :
    (sendCheck lib fuel s).1.isLocal = true := by
  unfold sendCheck
  simp only
  split
  · exact GetAccessToken_isLocal lib fuel _
  · rfl

theorem sendAfterCheck_isLocal_of (lib : Lib) (fuel : Nat) (msg : String)
    (ih : ∀ s : State, (Send lib fuel msg s).1.isLocal = true) (c : Outcome × State)
    (hc : c.1.isLocal = true) : (sendAfterCheck lib fuel msg c).1.isLocal = true := by
  by_cases h : c.1 = Outcome.returned
  · obtain ⟨o, s0⟩ := c
    simp only at h
    subst h
    simp only [sendAfterCheck]
    rcases hr : (s0.log LogLine.startSend).request
      (Event.post (sendURL (s0.log LogLine.startSend).m.AccessToken) msg) with ⟨r, s1⟩
    cases r with
    | transportError =>
      simp only
      have h2 := ih ((s1.log LogLine.sendConnectFail).Sleep (5 * second))
      rcases hrec : Send lib fuel msg ((s1.log LogLine.sendConnectFail).Sleep (5 * second))
        with ⟨o, s2⟩
      rw [hrec] at h2
      cases o <;> first | rfl | exact h2
    | response body readOk =>
      simp only
      have fin : ∀ (o : Outcome) (s2 : State), o.isLocal = true →
          (match (o, s2) with
            | (Outcome.returned, s) =>
              match lib.NewJson body with
              | none => (Outcome.panicked, s)
              | some json =>
                (Outcome.returned,
                  if ((json.Get "invaliduser").MustString).length > 0 then
                    State.log (if (json.Get "errcode").MustInt = 0 then
                        s.log (LogLine.sendOk msg)
                      else s.log (LogLine.sendFail (json.Get "errmsg").MustString))
                      (LogLine.invalidUser (json.Get "invaliduser").MustString)
                  else (if (json.Get "errcode").MustInt = 0 then s.log (LogLine.sendOk msg)
                      else s.log (LogLine.sendFail (json.Get "errmsg").MustString)))
            | (o, s) => (o, s)).1.isLocal = true := by
        intro o s2 h
        cases o
        case returned =>
          simp only
          cases lib.NewJson body <;> rfl
        all_goals exact h
      cases readOk with
      | true => exact fin Outcome.returned s1 rfl
      | false =>
        simp only [Bool.false_eq_true, if_false]
        rcases hrec : Send lib fuel msg ((s1.log LogLine.sendReadFail).Sleep (5 * second))
          with ⟨o, s2⟩
        refine fin o s2 ?_
        have h2 := ih ((s1.log LogLine.sendReadFail).Sleep (5 * second))
        rw [hrec] at h2
        exact h2
  · rw [sendAfterCheck_other lib fuel msg c h]
    exact hc

theorem Send_isLocal (lib : Lib) :
    ∀ (fuel : Nat) (msg : String) (s : State), (Send lib fuel msg s).1.isLocal = true := by
  intro fuel
  induction fuel with
  | zero => intro msg s; rfl
  | succ n ih =>
    intro msg s
    rw [Send_succ]
    exact sendAfterCheck_isLocal_of lib n msg (ih msg) _ (sendCheck_isLocal lib n s)

theorem sendLoop_isLocal (lib : Lib) (conf : Conf) (fuel : Nat) (json : Json) :
    ∀ (n i : Nat) (s : State), (sendLoop lib conf fuel json n i s).1.isLocal = true := by
  intro n
  induction n with
  | zero => intro i s; rfl
  | succ n ih =>
    intro i s
    rw [sendLoop]
    have h := Send_isLocal lib fuel
      (buildMsg conf (readAlert ((json.Get "alerts").GetIndex i)) (lib.localTime s.now)) s
    rcases hres : Send lib fuel
      (buildMsg conf (readAlert ((json.Get "alerts").GetIndex i)) (lib.localTime s.now)) s
      with ⟨o, t⟩
    rw [hres] at h
    cases o
    case returned => exact ih _ _
    all_goals exact h

/-! ## The loop over the alerts -/

theorem GetIndex_eq_of_Array (j : Json) (i : Nat) (a : Json) (h : j.Array[i]? = some a) :
    j.GetIndex i = a := by
  cases j <;> simp [Json.Array] at h
  case arr xs => simp [Json.GetIndex, List.getD, h]

theorem sendLoop_eq_deliverAll (lib : Lib) (conf : Conf) (fuel : Nat) (json : Json) :
    ∀ (n i : Nat) (s : State), i + n = (json.Get "alerts").Array.length →
      allReturn lib conf fuel ((json.Get "alerts").Array.drop i) s →
      sendLoop lib conf fuel json n i s =
        (Outcome.returned, deliverAll lib conf fuel ((json.Get "alerts").Array.drop i) s) := by
  intro n
  induction n with
  | zero =>
    intro i s hi _
    have : (json.Get "alerts").Array.drop i = [] := by
      apply List.drop_eq_nil_of_le; omega
    rw [this]
    rfl
  | succ n ih =>
    intro i s hi hall
    have hlt : i < (json.Get "alerts").Array.length := by omega
    have hdrop : (json.Get "alerts").Array.drop i =
        (json.Get "alerts").Array[i] :: (json.Get "alerts").Array.drop (i + 1) :=
      List.drop_eq_getElem_cons hlt
    have hidx : (json.Get "alerts").GetIndex i = (json.Get "alerts").Array[i] :=
      GetIndex_eq_of_Array _ i _ (List.getElem?_eq_getElem hlt)
    rw [hdrop] at hall ⊢
    obtain ⟨hret, hrest⟩ := hall
    rw [sendLoop, hidx]
    rcases hres : Send lib fuel
      (buildMsg conf (readAlert (json.Get "alerts").Array[i]) (lib.localTime s.now)) s
      with ⟨o, t⟩
    rw [hres] at hret hrest
    simp only at hret hrest
    subst hret
    simp only [deliverAll, hres]
    exact ih (i + 1) _ (by omega) hrest

theorem readAlert_eq_textAt (a : Json) :
    readAlert a =
      { status := textAt a ["status"]
        alertName := textAt a ["labels", "alertname"]
        hostName := textAt a ["labels", "hostname"]
        env := textAt a ["labels", "env"]
        job := textAt a ["labels", "job"]
        project := textAt a ["labels", "project"]
        service := textAt a ["labels", "service"]
        level := textAt a ["labels", "level"]
        startsAt := textAt a ["startsAt"]
        startsTime := (Parse (textAt a ["startsAt"])).getD zeroTime } := by
  have h1 : ∀ (j : Json) (k : String), (j.Get k).MustString = textAt j [k] := by
    intro j k
    cases j <;> try rfl
    case obj kvs =>
      simp only [Json.Get, textAt, valueAt]
      cases kvs.lookup k with
      | none => rfl
      | some v => cases v <;> rfl
  have h2 : ∀ (j : Json) (k1 k2 : String), ((j.Get k1).Get k2).MustString = textAt j [k1, k2] := by
    intro j k1 k2
    cases j <;> try rfl
    case obj kvs =>
      simp only [Json.Get, textAt, valueAt]
      cases kvs.lookup k1 with
      | none => rfl
      | some v =>
        have := h1 v k2
        simp only [textAt, Json.Get] at this
        simpa using this
  simp only [readAlert, h2]
  simp only [h1]

/-! ## Reading the message text -/

theorem readChars_append (a b : List Char) :
    ∀ r : Reader, readChars r (a ++ b) =
      match readChars r a with
      | none => none
      | some r1 => readChars r1 b := by
  induction a with
  | nil => intro r; rfl
  | cons c cs ih =>
    intro r
    simp only [List.cons_append, readChars]
    cases readChar r c with
    | none => rfl
    | some r1 => exact ih r1

theorem readChars_plain (owner : Option (List (String × Json))) (stack : List Frame)
    (cs : List Char) :
    ∀ acc : List Char, (∀ c ∈ cs, plainChar c = true) →
      readChars ⟨Pos.str acc owner, stack⟩ cs = some ⟨Pos.str (acc ++ cs) owner, stack⟩ := by
  induction cs with
  | nil => intro acc _; simp [readChars]
  | cons c cs ih =>
    intro acc h
    have hc := h c (List.mem_cons_self _ _)
    simp only [plainChar, Bool.and_eq_true, decide_eq_true_eq, bne_iff_ne, ne_eq,
      Bool.not_eq_true'] at hc
    have h1 : c ≠ '"' := by
      intro h0; simp [h0] at hc
    have h2 : c ≠ '\\' := by
      intro h0; simp [h0] at hc
    have h3 : ¬ c.toNat < 32 := by omega
    simp only [readChars, readChar, h1, h2, h3, if_false]
    rw [ih (acc ++ [c]) (fun d hd => h d (List.mem_cons_of_mem _ hd))]
    simp

theorem read_opening :
    readChars ⟨Pos.value, []⟩ "\x7b\n   \"touser\" : \"".data =
      some ⟨Pos.str [] none, [Frame.obj [] "touser"]⟩ := by
  rfl

set_option maxRecDepth 100000 in
theorem read_fixed_fields (acc : List Char) :
    readChars ⟨Pos.str acc none, [Frame.obj [] "touser"]⟩
      "\",\n   \"toparty\" : \"PartyID1 | PartyID2\",\n   \"totag\" : \"TagID1 | TagID2\",\n   \"msgtype\" : \"text\",\n   \"agentid\" : 1000002,\n   \"text\" : \x7b\n\t\t\"content\" : \"[".data =
      some ⟨Pos.str ['['] none, [Frame.obj [] "content",
        Frame.obj [("touser", Json.str (String.mk acc)),
          ("toparty", Json.str "PartyID1 | PartyID2"), ("totag", Json.str "TagID1 | TagID2"),
          ("msgtype", Json.str "text"), ("agentid", Json.num "1000002")] "text"]⟩ := by
  rfl

theorem read_closing (acc : List Char) (outer : List (String × Json)) :
    readChars ⟨Pos.str acc none, [Frame.obj [] "content", Frame.obj outer "text"]⟩
      "\"\n   \x7d\n\x7d".data =
      some ⟨Pos.after (Json.obj (putMember outer "text"
        (Json.obj [("content", Json.str (String.mk acc))]))), []⟩ := by
  rfl

theorem plain_append (a b : List Char) (ha : ∀ c ∈ a, plainChar c = true)
    (hb : ∀ c ∈ b, plainChar c = true) : ∀ c ∈ a ++ b, plainChar c = true := by
  intro c hc
  rcases List.mem_append.mp hc with h | h
  · exact ha c h
  · exact hb c h

theorem decodeJson_formatMsg (toUser status alertName project env hostName job service level
    startAt sendAt : String)
    (hu : plainText toUser) (h1 : plainText status) (h2 : plainText alertName)
    (h3 : plainText project) (h4 : plainText env) (h5 : plainText hostName)
    (h6 : plainText job) (h7 : plainText service) (h8 : plainText level)
    (h9 : plainText startAt) (h10 : plainText sendAt) :
    decodeJson (formatMsg toUser status alertName project env hostName job service level
      startAt sendAt) =
      some (messageObject toUser (contentText status alertName project env hostName job
        service level startAt sendAt)) := by
  have hbody : ∀ c ∈ status.data ++ ("]-".data ++ (alertName.data ++ ("</br>Project: ".data ++
      (project.data ++ ("</br>Env: ".data ++ (env.data ++ ("</br>Hostname: ".data ++
      (hostName.data ++ ("</br>Job: ".data ++ (job.data ++ ("</br>Service: ".data ++
      (service.data ++ ("</br>Level: ".data ++ (level.data ++ ("</br>StartAt: ".data ++
      (startAt.data ++ ("</br>SendAt: ".data ++ sendAt.data))))))))))))))))),
      plainChar c = true := by
    refine plain_append _ _ h1 (plain_append _ _ (by decide) (plain_append _ _ h2
      (plain_append _ _ (by decide) (plain_append _ _ h3 (plain_append _ _ (by decide)
      (plain_append _ _ h4 (plain_append _ _ (by decide) (plain_append _ _ h5
      (plain_append _ _ (by decide) (plain_append _ _ h6 (plain_append _ _ (by decide)
      (plain_append _ _ h7 (plain_append _ _ (by decide) (plain_append _ _ h8
      (plain_append _ _ (by decide) (plain_append _ _ h9
      (plain_append _ _ (by decide) h10)))))))))))))))))
  have hdata : (formatMsg toUser status alertName project env hostName job service level
      startAt sendAt).data =
      "\x7b\n   \"touser\" : \"".data ++ (toUser.data ++
      ("\",\n   \"toparty\" : \"PartyID1 | PartyID2\",\n   \"totag\" : \"TagID1 | TagID2\",\n   \"msgtype\" : \"text\",\n   \"agentid\" : 1000002,\n   \"text\" : \x7b\n\t\t\"content\" : \"[".data ++
      ((status.data ++ ("]-".data ++ (alertName.data ++ ("</br>Project: ".data ++
      (project.data ++ ("</br>Env: ".data ++ (env.data ++ ("</br>Hostname: ".data ++
      (hostName.data ++ ("</br>Job: ".data ++ (job.data ++ ("</br>Service: ".data ++
      (service.data ++ ("</br>Level: ".data ++ (level.data ++ ("</br>StartAt: ".data ++
      (startAt.data ++ ("</br>SendAt: ".data ++ sendAt.data)))))))))))))))))) ++
      "\"\n   \x7d\n\x7d".data))) := by
    simp only [formatMsg, String.data_append, List.append_assoc]
  have hcontent : contentText status alertName project env hostName job service level
      startAt sendAt =
      String.mk (['['] ++ (status.data ++
      ("]-".data ++
      (alertName.data ++
      ("</br>Project: ".data ++
      (project.data ++
      ("</br>Env: ".data ++
      (env.data ++
      ("</br>Hostname: ".data ++
      (hostName.data ++
      ("</br>Job: ".data ++
      (job.data ++
      ("</br>Service: ".data ++
      (service.data ++
      ("</br>Level: ".data ++
      (level.data ++
      ("</br>StartAt: ".data ++
      (startAt.data ++
      ("</br>SendAt: ".data ++
      (sendAt.data)))))))))))))))))))) := by
    apply String.ext
    simp only [contentText, String.data_append, List.append_assoc]
  unfold decodeJson
  rw [hdata, readChars_append, read_opening]
  simp only
  rw [readChars_append, readChars_plain none _ toUser.data [] hu]
  simp only
  rw [readChars_append, read_fixed_fields]
  simp only
  rw [readChars_append, readChars_plain none _ _ ['['] hbody]
  simp only
  rw [read_closing, hcontent]
  simp [readEnd, putMember, messageObject]

theorem digitChar_plain : ∀ m : Nat, m < 10 → plainChar (Nat.digitChar m) = true := by
  decide

theorem toDigitsCore_plain :
    ∀ (fuel n : Nat) (ds : List Char), (∀ c ∈ ds, plainChar c = true) →
      ∀ c ∈ Nat.toDigitsCore 10 fuel n ds, plainChar c = true := by
  intro fuel
  induction fuel with
  | zero => intro n ds h; simpa [Nat.toDigitsCore] using h
  | succ f ih =>
    intro n ds h
    have hd : ∀ c ∈ Nat.digitChar (n % 10) :: ds, plainChar c = true := by
      intro c hc
      rcases List.mem_cons.mp hc with rfl | hc
      · exact digitChar_plain _ (Nat.mod_lt _ (by decide))
      · exact h c hc
    simp only [Nat.toDigitsCore]
    split
    · exact hd
    · exact ih _ _ hd

theorem appendInt_plain (x width : Nat) : ∀ c ∈ appendInt x width, plainChar c = true := by
  unfold appendInt
  refine plain_append _ _ ?_ ?_
  · intro c hc
    rw [(List.mem_replicate.mp hc).2]
    decide
  · exact toDigitsCore_plain _ _ _ (by simp)

theorem plain_cons (c : Char) (l : List Char) (hc : plainChar c = true)
    (hl : ∀ d ∈ l, plainChar d = true) : ∀ d ∈ c :: l, plainChar d = true := by
  intro d hd
  rcases List.mem_cons.mp hd with rfl | h
  · exact hc
  · exact hl d h

theorem Format_plain (t : WallTime) : plainText (Format t) := by
  unfold plainText Format
  simp only
  repeat' first
    | exact appendInt_plain _ _
    | apply plain_append
    | apply plain_cons _ _ (by decide)

/-! ## The claims -/

/-- C1: for a payload that parses and whose "alerts" is an array of N elements, if
every `Send` of the run returns, `sendToWeChat` returns after exactly the run
`deliverAll`: one `Send` per element, in array order, the i-th with the message built
from the i-th element, each followed by a sleep of one second, the last one included.
When "alerts" is empty, absent or not an array, no `Send` is made and nothing sleeps:
the state is the one after the dequeue. -/
theorem sendToWeChat_sends_each_alert_once (lib : Lib) (conf : Conf) (fuel : Nat) (s : State)
    (payload : String) (queued : List String) (json : Json)
    (hq : s.m.MCH = payload :: queued) (hjson : lib.NewJson payload = some json) :
    (allReturn lib conf fuel (json.Get "alerts").Array { s with m := { s.m with MCH := queued } } →
      sendToWeChat lib conf fuel s =
        (Outcome.returned,
          deliverAll lib conf fuel (json.Get "alerts").Array
            { s with m := { s.m with MCH := queued } })) ∧
    ((json.Get "alerts").Array = [] →
      sendToWeChat lib conf fuel s =
        (Outcome.returned, { s with m := { s.m with MCH := queued } })) ∧
    ((∀ xs : List Json, json.Get "alerts" ≠ Json.arr xs) → (json.Get "alerts").Array = []) := by
  have hrun : allReturn lib conf fuel (json.Get "alerts").Array
      { s with m := { s.m with MCH := queued } } →
      sendToWeChat lib conf fuel s =
        (Outcome.returned,
          deliverAll lib conf fuel (json.Get "alerts").Array
            { s with m := { s.m with MCH := queued } }) := by
    intro hall
    have h := sendLoop_eq_deliverAll lib conf fuel json (json.Get "alerts").Array.length 0
      { s with m := { s.m with MCH := queued } } (by omega) (by simpa using hall)
    simpa [sendToWeChat, hq, hjson] using h
  refine ⟨hrun, fun hnil => ?_, fun hno => ?_⟩
  · have h := hrun (by rw [hnil]; trivial)
    rw [hnil] at h
    exact h
  · cases hj : json.Get "alerts" <;> first | rfl | exact absurd hj (hno _)

/-- C1, worked: the payload of the decoding example, a fresh credential and a send
endpoint that accepts: one `Send`, then one second of sleep. -/
theorem sendToWeChat_sends_each_alert_once_witness :
    sendToWeChat demoLib demoConf 1
        { m := { demoMSG with MCH := [alertText] }
          now := 1000 * second + 60 * second
          net := [(7, HttpResult.response acceptedText true)]
          trace := [] } =
      (Outcome.returned,
        deliverAll demoLib demoConf 1 (alertJson.Get "alerts").Array
          { m := { demoMSG with MCH := [] }
            now := 1000 * second + 60 * second
            net := [(7, HttpResult.response acceptedText true)]
            trace := [] }) :=
  (sendToWeChat_sends_each_alert_once demoLib demoConf 1
    { m := { demoMSG with MCH := [alertText] }
      now := 1000 * second + 60 * second
      net := [(7, HttpResult.response acceptedText true)]
      trace := [] } alertText [] alertJson rfl rfl).1
    (by decide)

/-- C8: for a payload that parses, `sendToWeChat` does not end in the fatal error, and
the i-th iteration of its loop reads the i-th element of the "alerts" array: status,
alert name, hostname, environment, job, project, service, severity level and start-time
text are the strings at their paths in that element, the empty string when the path is
absent or holds no string, and the start time is the zero time when the text does not
parse. -/
theorem sendToWeChat_decodes_every_alert (lib : Lib) (conf : Conf) (fuel : Nat) (s : State)
    (payload : String) (queued : List String) (json : Json)
    (hq : s.m.MCH = payload :: queued) (hjson : lib.NewJson payload = some json) :
    (sendToWeChat lib conf fuel s).1 ≠ Outcome.exited ∧
    ∀ (i : Nat) (hi : i < (json.Get "alerts").Array.length),
      (json.Get "alerts").GetIndex i = (json.Get "alerts").Array[i] ∧
      readAlert ((json.Get "alerts").GetIndex i) =
        { status := textAt (json.Get "alerts").Array[i] ["status"]
          alertName := textAt (json.Get "alerts").Array[i] ["labels", "alertname"]
          hostName := textAt (json.Get "alerts").Array[i] ["labels", "hostname"]
          env := textAt (json.Get "alerts").Array[i] ["labels", "env"]
          job := textAt (json.Get "alerts").Array[i] ["labels", "job"]
          project := textAt (json.Get "alerts").Array[i] ["labels", "project"]
          service := textAt (json.Get "alerts").Array[i] ["labels", "service"]
          level := textAt (json.Get "alerts").Array[i] ["labels", "level"]
          startsAt := textAt (json.Get "alerts").Array[i] ["startsAt"]
          startsTime := match Parse (textAt (json.Get "alerts").Array[i] ["startsAt"]) with
            | some t => t
            | none => zeroTime } := by
  constructor
  · intro hex
    have hl := sendLoop_isLocal lib conf fuel json (json.Get "alerts").Array.length 0
      { s with m := { s.m with MCH := queued } }
    simp only [sendToWeChat, hq, hjson] at hex
    rw [hex] at hl
    exact absurd hl (by decide)
  · intro i hi
    have hidx : (json.Get "alerts").GetIndex i = (json.Get "alerts").Array[i] :=
      GetIndex_eq_of_Array _ i _ (List.getElem?_eq_getElem hi)
    refine ⟨hidx, ?_⟩
    rw [hidx, readAlert_eq_textAt]
    cases Parse (textAt (json.Get "alerts").Array[i] ["startsAt"]) <;> rfl

/-- C8, worked: the payload of the specification yields exactly one event, with status
"firing", alert name "A", an empty hostname and the start time 2024-01-01 00:00:00 at
offset +00:00; its label "severity" is not among the paths read, so the level is empty. -/
theorem sendToWeChat_decodes_every_alert_witness :
    (sendToWeChat demoLib demoConf 1
        { m := { demoMSG with MCH := [alertText] }
          now := 1000 * second + 60 * second
          net := [(7, HttpResult.response acceptedText true)]
          trace := [] }).1 ≠ Outcome.exited ∧
    (alertJson.Get "alerts").Array.length = 1 ∧
    readAlert ((alertJson.Get "alerts").GetIndex 0) =
      { status := "firing", alertName := "A", hostName := "", env := "", job := "",
        project := "", service := "", level := "",
        startsAt := "2024-01-01T00:00:00.0+00:00"
        startsTime := ⟨2024, 1, 1, 0, 0, 0, 0, 0⟩ } :=
  ⟨(sendToWeChat_decodes_every_alert demoLib demoConf 1
      { m := { demoMSG with MCH := [alertText] }
        now := 1000 * second + 60 * second
        net := [(7, HttpResult.response acceptedText true)]
        trace := [] } alertText [] alertJson rfl rfl).1, rfl, by decide⟩

/-- C2, as stated, fails: for a credential issued at a non-zero time T, a `Send` called
when the clock reads exactly T + 2h (so that now >= AccessTokenCreatAt + 2h) makes no
token request: its only request is the POST with the held token `T0`, and the
credential is left as it was. -/
theorem Send_at_exact_expiry_keeps_token :
    demoMSG.AccessTokenCreatAt ≠ 0 ∧
    (demoState (1000 * second + timeoutDuration) [(0, HttpResult.response acceptedText true)]).now ≥
      demoMSG.AccessTokenCreatAt + timeoutDuration ∧
    requests (emitted
      (demoState (1000 * second + timeoutDuration) [(0, HttpResult.response acceptedText true)])
      (Send demoLib 3 "m"
        (demoState (1000 * second + timeoutDuration)
          [(0, HttpResult.response acceptedText true)])).2) =
      [Event.post (sendURL "T0") "m"] ∧
    (Send demoLib 3 "m"
      (demoState (1000 * second + timeoutDuration)
        [(0, HttpResult.response acceptedText true)])).2.m = demoMSG := by
  decide

/-- C2, amended: `Send` performs a refresh exactly when the clock is strictly later than
AccessTokenCreatAt + 2h (`currentTime.After`). The first request of a `Send` is the GET
of the token endpoint if and only if AccessTokenCreatAt + 2h < now; otherwise the first
request is the POST carrying the held token, and when that POST is answered the call
makes no token request at all and leaves the receiver unchanged. The Empty state is the
case AccessTokenCreatAt = 0, refreshed at every clock reading later than 2h. -/
theorem Send_refreshes_iff_strictly_expired (lib : Lib) (fuel : Nat) (msg : String) (s : State) :
    (firstRequest (emitted s (Send lib (fuel + 2) msg s).2) =
        some (Event.get (tokenURL s.m.CorpID s.m.CorpSecret)) ↔
      s.m.AccessTokenCreatAt + timeoutDuration < s.now) ∧
    (s.now ≤ s.m.AccessTokenCreatAt + timeoutDuration →
      firstRequest (emitted s (Send lib (fuel + 1) msg s).2) =
        some (Event.post (sendURL s.m.AccessToken) msg) ∧
      ∀ (latency : Nat) (body : String) (rest : List (Nat × HttpResult)),
        s.net = (latency, HttpResult.response body true) :: rest →
        requests (emitted s (Send lib (fuel + 1) msg s).2) =
          [Event.post (sendURL s.m.AccessToken) msg] ∧
        (Send lib (fuel + 1) msg s).2.m = s.m) ∧
    (s.m.AccessTokenCreatAt = 0 → timeoutDuration < s.now →
      firstRequest (emitted s (Send lib (fuel + 2) msg s).2) =
        some (Event.get (tokenURL s.m.CorpID s.m.CorpSecret))) := by
  have hexp : s.m.AccessTokenCreatAt + timeoutDuration < s.now →
      firstRequest (emitted s (Send lib (fuel + 2) msg s).2) =
        some (Event.get (tokenURL s.m.CorpID s.m.CorpSecret)) := fun h =>
    firstRequest_of_begin s _ _ _ (Send_expired_begins lib fuel msg s h) rfl
  have hfr : ∀ f : Nat, s.now ≤ s.m.AccessTokenCreatAt + timeoutDuration →
      firstRequest (emitted s (Send lib (f + 1) msg s).2) =
        some (Event.post (sendURL s.m.AccessToken) msg) := fun f h =>
    firstRequest_of_begin s _ _ _ (Send_fresh_begins lib f msg s h) rfl
  refine ⟨⟨fun h => ?_, hexp⟩, fun h => ⟨hfr fuel h, fun latency body rest hnet =>
    Send_fresh_answered_run lib fuel msg s latency body rest h hnet⟩, fun h0 h => hexp (by omega)⟩
  by_contra hn
  rw [hfr (fuel + 1) (Nat.not_lt.mp hn)] at h
  simp at h

/-- C2, worked: for the credential issued at T = 1000 s, the first request of a `Send`
called at T + 2h01m is the GET of the token endpoint. -/
theorem Send_refreshes_iff_strictly_expired_witness :
    firstRequest (emitted (demoState (1000 * second + timeoutDuration + 60 * second) [])
      (Send demoLib 2 "m" (demoState (1000 * second + timeoutDuration + 60 * second) [])).2) =
      some (Event.get (tokenURL "corp" "secret")) :=
  (Send_refreshes_iff_strictly_expired demoLib 0 "m"
    (demoState (1000 * second + timeoutDuration + 60 * second) [])).1.2 (by decide)


/-- C3, as stated, fails: the Empty receiver is granted the token `X` at clock reading
5000 s + 3 ns; a `Send` called with this credential one second before that reading + 2h,
whose POST fails once at transport level, retries 5 seconds later, finds the credential
expired and makes a further token-endpoint request between its two POSTs. -/
theorem Send_before_expiry_refetches_after_failed_post :
    GetAccessToken demoLib 1
        { m := { demoMSG with AccessToken := "", AccessTokenCreatAt := 0 }
          now := 5000 * second
          net := [(3, HttpResult.response grantText true)]
          trace := [] } =
      (Outcome.returned,
        { m := { demoMSG with AccessToken := "X", AccessTokenCreatAt := 5000 * second + 3 }
          now := 5000 * second + 3
          net := []
          trace := [Event.log LogLine.tokenStart, Event.get (tokenURL "corp" "secret"),
            Event.log LogLine.tokenConnectOk, Event.log LogLine.tokenReadOk,
            Event.log (LogLine.tokenOk "X")] }) ∧
    5000 * second + 3 + timeoutDuration - 1 * second < 5000 * second + 3 + timeoutDuration ∧
    requests (emitted
      { m := { demoMSG with AccessToken := "X", AccessTokenCreatAt := 5000 * second + 3 }
        now := 5000 * second + 3 + timeoutDuration - 1 * second
        net := [(0, HttpResult.transportError), (0, HttpResult.response grantText true),
          (0, HttpResult.response acceptedText true)]
        trace := [] }
      (Send demoLib 3 "m"
        { m := { demoMSG with AccessToken := "X", AccessTokenCreatAt := 5000 * second + 3 }
          now := 5000 * second + 3 + timeoutDuration - 1 * second
          net := [(0, HttpResult.transportError), (0, HttpResult.response grantText true),
            (0, HttpResult.response acceptedText true)]
          trace := [] }).2) =
      [Event.post (sendURL "X") "m", Event.get (tokenURL "corp" "secret"),
       Event.post (sendURL "X") "m"] := by
  decide

/-- C3, amended: a refresh whose first attempt is answered with errcode 0 and
access_token X issues exactly one GET and returns with AccessToken = X and
AccessTokenCreatAt = the clock reading of the answer, every other field of the receiver
unchanged. Every later `Send` called with this credential before that reading + 2h makes
its POST with X as its first request, no token request before it. It makes no token
request at all and leaves the receiver unchanged when that POST is answered, and also
when the POST fails at transport level k times before it is answered, provided the
credential is still not expired at the last retry: each retry is a call of the whole of
`Send`, which runs the expiry check again at its later clock reading. -/
theorem GetAccessToken_grant_holds_token (lib : Lib) (fuel : Nat) (s : State) (latency : Nat)
    (body : String) (rest : List (Nat × HttpResult)) (json : Json)
    (hnet : s.net = (latency, HttpResult.response body true) :: rest)
    (hjson : lib.NewJson body = some json) (hcode : (json.Get "errcode").MustInt = 0) :
    GetAccessToken lib (fuel + 1) s =
      (Outcome.returned,
        { m := { MCH := s.m.MCH, CorpID := s.m.CorpID, CorpSecret := s.m.CorpSecret,
                 AgentID := s.m.AgentID, AccessToken := (json.Get "access_token").MustString,
                 AccessTokenCreatAt := s.now + latency }
          now := s.now + latency
          net := rest
          trace := s.trace ++ [Event.log LogLine.tokenStart,
            Event.get (tokenURL s.m.CorpID s.m.CorpSecret), Event.log LogLine.tokenConnectOk,
            Event.log LogLine.tokenReadOk,
            Event.log (LogLine.tokenOk (json.Get "access_token").MustString)] }) ∧
    ∀ (fuel2 : Nat) (msg : String) (t : State),
      t.m.AccessToken = (json.Get "access_token").MustString →
      t.m.AccessTokenCreatAt = s.now + latency →
      t.now < s.now + latency + timeoutDuration →
      firstRequest (emitted t (Send lib (fuel2 + 1) msg t).2) =
        some (Event.post (sendURL (json.Get "access_token").MustString) msg) ∧
      (∀ (latency2 : Nat) (body2 : String) (rest2 : List (Nat × HttpResult)),
        t.net = (latency2, HttpResult.response body2 true) :: rest2 →
        requests (emitted t (Send lib (fuel2 + 1) msg t).2) =
          [Event.post (sendURL (json.Get "access_token").MustString) msg] ∧
        (Send lib (fuel2 + 1) msg t).2.m = t.m) ∧
      (∀ (latencies : List Nat) (latency2 : Nat) (body2 : String)
          (rest2 : List (Nat × HttpResult)),
        t.net = failures latencies ++ (latency2, HttpResult.response body2 true) :: rest2 →
        t.now + latencies.sum + latencies.length * (5 * second) ≤
          s.now + latency + timeoutDuration →
        actions (emitted t (Send lib (fuel2 + latencies.length + 1) msg t).2) =
          retried latencies (Event.post (sendURL (json.Get "access_token").MustString) msg) ++
            [Event.post (sendURL (json.Get "access_token").MustString) msg] ∧
        (Send lib (fuel2 + latencies.length + 1) msg t).2.m = t.m) := by
  refine ⟨?_, ?_⟩
  · rw [GetAccessToken_granted lib fuel s latency body rest json hnet hjson hcode]
    rfl
  · intro fuel2 msg t htok hcreat hnow
    have hfresh : t.now ≤ t.m.AccessTokenCreatAt + timeoutDuration := by omega
    refine ⟨?_, ?_, ?_⟩
    · rw [← htok]
      exact firstRequest_of_begin t _ _ _ (Send_fresh_begins lib fuel2 msg t hfresh) rfl
    · intro latency2 body2 rest2 hnet2
      rw [← htok]
      exact Send_fresh_answered_run lib fuel2 msg t latency2 body2 rest2 hfresh hnet2
    · intro latencies latency2 body2 rest2 hnet2 hlast
      rw [← hcreat] at hlast
      obtain ⟨evs, hrun, hact, _⟩ := sendAfterCheck_run lib fuel2 msg latency2 body2 rest2
        latencies (checkedFresh t) (by simpa [checkedFresh, State.log] using hnet2)
        (by simpa [checkedFresh, State.log] using hlast)
      rw [Send_succ, sendCheck_fresh lib _ t hfresh, hrun, ← htok]
      constructor
      · rw [emitted_of_trace t _ ([Event.log LogLine.checkToken,
          Event.log LogLine.tokenNotTimeout] ++ evs)
          (by simp [checkedFresh, State.log, List.append_assoc]), actions_append, hact]
        simp [actions, Event.isLog, checkedFresh, State.log]
      · simp [checkedFresh, State.log]

/-- C3, worked: the Empty receiver at clock reading 5000 s gets `grantText` after 3 ns;
a `Send` one hour later, whose POST fails twice and is then answered, makes three POSTs
with `X` and no token request. -/
theorem GetAccessToken_grant_holds_token_witness :
    GetAccessToken demoLib 1
        { m := { demoMSG with AccessToken := "", AccessTokenCreatAt := 0 }
          now := 5000 * second
          net := [(3, HttpResult.response grantText true)]
          trace := [] } =
      (Outcome.returned,
        { m := { demoMSG with AccessToken := "X", AccessTokenCreatAt := 5000 * second + 3 }
          now := 5000 * second + 3
          net := []
          trace := [Event.log LogLine.tokenStart, Event.get (tokenURL "corp" "secret"),
            Event.log LogLine.tokenConnectOk, Event.log LogLine.tokenReadOk,
            Event.log (LogLine.tokenOk "X")] }) ∧
    actions (emitted
      { m := { demoMSG with AccessToken := "X", AccessTokenCreatAt := 5000 * second + 3 }
        now := 8600 * second
        net := [(1, HttpResult.transportError), (2, HttpResult.transportError),
          (3, HttpResult.response acceptedText true)]
        trace := [] }
      (Send demoLib 3 "m"
        { m := { demoMSG with AccessToken := "X", AccessTokenCreatAt := 5000 * second + 3 }
          now := 8600 * second
          net := [(1, HttpResult.transportError), (2, HttpResult.transportError),
            (3, HttpResult.response acceptedText true)]
          trace := [] }).2) =
      [Event.post (sendURL "X") "m", Event.sleep (5 * second),
       Event.post (sendURL "X") "m", Event.sleep (5 * second),
       Event.post (sendURL "X") "m"] := by
  have h := GetAccessToken_grant_holds_token demoLib 0
    { m := { demoMSG with AccessToken := "", AccessTokenCreatAt := 0 }
      now := 5000 * second
      net := [(3, HttpResult.response grantText true)]
      trace := [] } 3 grantText [] grantJson rfl rfl (by decide)
  exact ⟨h.1, ((h.2 0 "m"
    { m := { demoMSG with AccessToken := "X", AccessTokenCreatAt := 5000 * second + 3 }
      now := 8600 * second
      net := [(1, HttpResult.transportError), (2, HttpResult.transportError),
        (3, HttpResult.response acceptedText true)]
      trace := [] } rfl rfl (by decide)).2.2 [1, 2] 3 acceptedText [] rfl (by decide)).1⟩

/-- C4, on the code: when the token endpoint fails at transport level k times and then
answers with errcode 0 and access_token X, `GetAccessToken` makes k + 1 GETs with a
5-second sleep before each retry and installs X with the clock reading of the answer,
but it returns normally only for k = 0: for k >= 1 the call that retried goes on to
`defer resp.Body.Close()` with a nil `resp` and panics. -/
theorem GetAccessToken_transport_retry_panics (lib : Lib) (fuel latency : Nat) (body : String)
    (rest : List (Nat × HttpResult)) (json : Json) (latencies : List Nat) (s : State)
    (hnet : s.net = failures latencies ++ (latency, HttpResult.response body true) :: rest)
    (hjson : lib.NewJson body = some json) (hcode : (json.Get "errcode").MustInt = 0) :
    (GetAccessToken lib (fuel + latencies.length + 1) s).1 =
      (if latencies = [] then Outcome.returned else Outcome.panicked) ∧
    (GetAccessToken lib (fuel + latencies.length + 1) s).2.m =
      { MCH := s.m.MCH, CorpID := s.m.CorpID, CorpSecret := s.m.CorpSecret,
        AgentID := s.m.AgentID, AccessToken := (json.Get "access_token").MustString,
        AccessTokenCreatAt :=
          s.now + latencies.sum + latencies.length * (5 * second) + latency } ∧
    (GetAccessToken lib (fuel + latencies.length + 1) s).2.now =
      s.now + latencies.sum + latencies.length * (5 * second) + latency ∧
    (GetAccessToken lib (fuel + latencies.length + 1) s).2.net = rest ∧
    actions (emitted s (GetAccessToken lib (fuel + latencies.length + 1) s).2) =
      retried latencies (Event.get (tokenURL s.m.CorpID s.m.CorpSecret)) ++
        [Event.get (tokenURL s.m.CorpID s.m.CorpSecret)] := by
  obtain ⟨evs, hrun, hact, _⟩ :=
    GetAccessToken_transport_run lib fuel latency body rest json hjson hcode latencies s hnet
  rw [hrun]
  refine ⟨rfl, rfl, rfl, rfl, ?_⟩
  rw [emitted_of_trace s _ evs rfl, hact]

/-- C4, worked: the endpoint fails twice and then answers `grantText`. There are three
GETs and two sleeps, the credential ends as Holding("X", time of the answer), and the
call panics. -/
theorem GetAccessToken_transport_retry_panics_witness :
    (GetAccessToken demoLib 3
      (demoState (9000 * second) [(1, HttpResult.transportError), (2, HttpResult.transportError),
        (3, HttpResult.response grantText true)])).1 = Outcome.panicked ∧
    (GetAccessToken demoLib 3
      (demoState (9000 * second) [(1, HttpResult.transportError), (2, HttpResult.transportError),
        (3, HttpResult.response grantText true)])).2.m =
      { demoMSG with AccessToken := "X", AccessTokenCreatAt := 9010 * second + 6 } ∧
    actions (emitted (demoState (9000 * second) [(1, HttpResult.transportError),
        (2, HttpResult.transportError), (3, HttpResult.response grantText true)])
      (GetAccessToken demoLib 3
        (demoState (9000 * second) [(1, HttpResult.transportError),
          (2, HttpResult.transportError), (3, HttpResult.response grantText true)])).2) =
      [Event.get (tokenURL "corp" "secret"), Event.sleep (5 * second),
       Event.get (tokenURL "corp" "secret"), Event.sleep (5 * second),
       Event.get (tokenURL "corp" "secret")] := by
  have h := GetAccessToken_transport_retry_panics demoLib 0 3 grantText [] grantJson [1, 2]
    (demoState (9000 * second) [(1, HttpResult.transportError), (2, HttpResult.transportError),
      (3, HttpResult.response grantText true)]) rfl rfl (by decide)
  exact ⟨h.1, h.2.1, h.2.2.2.2⟩


/-- C5, as stated, fails: the credential `T0` is one second short of expiry when `Send`
is called, the POST fails once, and the retry, 5 seconds later, runs the expiry check
again: a token request is made between the two POSTs, the second POST carries the new
token `X`, the receiver ends up holding `X`, and the call does not return normally. -/
theorem Send_retry_across_expiry_refetches :
    actions (emitted
      (demoState (1000 * second + timeoutDuration - 1 * second)
        [(0, HttpResult.transportError), (0, HttpResult.response grantText true),
         (0, HttpResult.response acceptedText true)])
      (Send demoLib 3 "m"
        (demoState (1000 * second + timeoutDuration - 1 * second)
          [(0, HttpResult.transportError), (0, HttpResult.response grantText true),
           (0, HttpResult.response acceptedText true)])).2) =
      [Event.post (sendURL "T0") "m", Event.sleep (5 * second),
       Event.get (tokenURL "corp" "secret"), Event.post (sendURL "X") "m"] ∧
    (Send demoLib 3 "m"
      (demoState (1000 * second + timeoutDuration - 1 * second)
        [(0, HttpResult.transportError), (0, HttpResult.response grantText true),
         (0, HttpResult.response acceptedText true)])).2.m.AccessToken = "X" ∧
    (Send demoLib 3 "m"
      (demoState (1000 * second + timeoutDuration - 1 * second)
        [(0, HttpResult.transportError), (0, HttpResult.response grantText true),
         (0, HttpResult.response acceptedText true)])).1 ≠ Outcome.returned := by
  decide

/-- C5, amended: when the POST of `Send` fails at transport level k times and is then
answered, `Send` sleeps 5 seconds before each retry and makes exactly k + 1 POSTs. Each
retry is a nested call of the whole of `Send`, expiry check included; as long as the
credential is not expired at the last retry (clock reading of that retry <=
AccessTokenCreatAt + 2h) all POSTs carry the same token, no token request is made and the
receiver is unchanged. This holds from a `Send` that finds the credential fresh, and
from the state `g` in which the refresh of a `Send` that found it expired returned. -/
theorem Send_transport_retries_keep_fresh_token (lib : Lib) (fuel : Nat) (msg : String)
    (latency : Nat) (body : String) (rest : List (Nat × HttpResult)) (latencies : List Nat)
    (s : State) :
    (s.net = failures latencies ++ (latency, HttpResult.response body true) :: rest →
      s.now + latencies.sum + latencies.length * (5 * second) ≤
        s.m.AccessTokenCreatAt + timeoutDuration →
      actions (emitted s (Send lib (fuel + latencies.length + 1) msg s).2) =
        retried latencies (Event.post (sendURL s.m.AccessToken) msg) ++
          [Event.post (sendURL s.m.AccessToken) msg] ∧
      (Send lib (fuel + latencies.length + 1) msg s).2.m = s.m) ∧
    (∀ g : State, s.m.AccessTokenCreatAt + timeoutDuration < s.now →
      GetAccessToken lib (fuel + latencies.length) (checkedExpired s) = (Outcome.returned, g) →
      g.net = failures latencies ++ (latency, HttpResult.response body true) :: rest →
      g.now + latencies.sum + latencies.length * (5 * second) ≤
        g.m.AccessTokenCreatAt + timeoutDuration →
      actions (emitted g (Send lib (fuel + latencies.length + 1) msg s).2) =
        retried latencies (Event.post (sendURL g.m.AccessToken) msg) ++
          [Event.post (sendURL g.m.AccessToken) msg] ∧
      (Send lib (fuel + latencies.length + 1) msg s).2.m = g.m) := by
  constructor
  · intro hnet hfresh
    have hf : s.now ≤ s.m.AccessTokenCreatAt + timeoutDuration :=
      le_trans (by omega) hfresh
    obtain ⟨evs, hrun, hact, _⟩ := sendAfterCheck_run lib fuel msg latency body rest latencies
      (checkedFresh s) (by simpa [checkedFresh, State.log] using hnet)
      (by simpa [checkedFresh, State.log] using hfresh)
    rw [Send_succ, sendCheck_fresh lib _ s hf, hrun]
    constructor
    · rw [emitted_of_trace s _ ([Event.log LogLine.checkToken,
        Event.log LogLine.tokenNotTimeout] ++ evs)
        (by simp [checkedFresh, State.log, List.append_assoc]), actions_append, hact]
      simp [actions, Event.isLog, checkedFresh, State.log]
    · simp [checkedFresh, State.log]
  · intro g hstale hg hnet hfresh
    obtain ⟨evs, hrun, hact, _⟩ := sendAfterCheck_run lib fuel msg latency body rest latencies
      g hnet hfresh
    rw [Send_succ, sendCheck_expired lib _ s hstale, hg, hrun]
    exact ⟨by rw [emitted_of_trace g _ evs rfl, hact], rfl⟩

/-- C5, worked: the credential `T0` is fresh for another hour, the POST fails twice and
is then answered: three POSTs with `T0`, a 5-second sleep before each retry. -/
theorem Send_transport_retries_keep_fresh_token_witness :
    actions (emitted
      (demoState (1000 * second + 3600 * second)
        [(1, HttpResult.transportError), (2, HttpResult.transportError),
         (3, HttpResult.response acceptedText true)])
      (Send demoLib 3 "m"
        (demoState (1000 * second + 3600 * second)
          [(1, HttpResult.transportError), (2, HttpResult.transportError),
           (3, HttpResult.response acceptedText true)])).2) =
      [Event.post (sendURL "T0") "m", Event.sleep (5 * second),
       Event.post (sendURL "T0") "m", Event.sleep (5 * second),
       Event.post (sendURL "T0") "m"] ∧
    (Send demoLib 3 "m"
      (demoState (1000 * second + 3600 * second)
        [(1, HttpResult.transportError), (2, HttpResult.transportError),
         (3, HttpResult.response acceptedText true)])).2.m = demoMSG :=
  (Send_transport_retries_keep_fresh_token demoLib 0 "m" 3 acceptedText [] [1, 2]
    (demoState (1000 * second + 3600 * second)
      [(1, HttpResult.transportError), (2, HttpResult.transportError),
       (3, HttpResult.response acceptedText true)])).1 rfl (by decide)

/-- C6: with a fresh credential, when the POST of `Send` is answered and the answer
parses, `Send` makes exactly one POST, logs the delivery failure (non-zero errcode) or
the success (errcode 0), then the invalid users if the answer names any, sleeps not at
all, runs its expiry check once (it does not call itself) and returns. -/
theorem Send_answer_is_final (lib : Lib) (fuel : Nat) (msg : String) (s : State) (latency : Nat)
    (body : String) (rest : List (Nat × HttpResult)) (json : Json)
    (hfresh : s.now ≤ s.m.AccessTokenCreatAt + timeoutDuration)
    (hnet : s.net = (latency, HttpResult.response body true) :: rest)
    (hjson : lib.NewJson body = some json) :
    Send lib (fuel + 1) msg s =
      (Outcome.returned,
        { m := s.m
          now := s.now + latency
          net := rest
          trace := s.trace ++ [Event.log LogLine.checkToken, Event.log LogLine.tokenNotTimeout,
            Event.log LogLine.startSend, Event.post (sendURL s.m.AccessToken) msg] ++
            (if (json.Get "errcode").MustInt = 0 then [Event.log (LogLine.sendOk msg)]
              else [Event.log (LogLine.sendFail (json.Get "errmsg").MustString)]) ++
            (if ((json.Get "invaliduser").MustString).length > 0 then
              [Event.log (LogLine.invalidUser (json.Get "invaliduser").MustString)] else []) }) := by
  rw [Send_succ, sendCheck_fresh lib fuel s hfresh,
    sendAfterCheck_answered lib fuel msg (checkedFresh s) latency body rest
      (by simpa [checkedFresh, State.log] using hnet), hjson]
  simp [checkedFresh, State.log, verdictLines, List.append_assoc]

/-- C6, worked: the answer `{"errcode":75001,"errmsg":"invalid param"}` to a `Send`
with a fresh credential: one POST, the failure logged, no sleep, no retry. -/
theorem Send_answer_is_final_witness :
    Send demoLib 1 "m"
        (demoState (1000 * second + 60 * second) [(7, HttpResult.response rejectedText true)]) =
      (Outcome.returned,
        { m := demoMSG
          now := 1000 * second + 60 * second + 7
          net := []
          trace := [Event.log LogLine.checkToken, Event.log LogLine.tokenNotTimeout,
            Event.log LogLine.startSend, Event.post (sendURL "T0") "m",
            Event.log (LogLine.sendFail "invalid param")] }) :=
  Send_answer_is_final demoLib 0 "m"
    (demoState (1000 * second + 60 * second) [(7, HttpResult.response rejectedText true)])
    7 rejectedText [] rejectedJson (by decide) rfl rfl

/-- C7: when the token endpoint gives k completely read answers that parse with a
non-zero errcode and then one with errcode 0 and access_token X, `GetAccessToken`
sleeps 5 seconds after each of the k answers, makes exactly k + 1 GETs, installs one
token only, X, and returns with AccessToken = X and AccessTokenCreatAt = the clock
reading of the last answer. -/
theorem GetAccessToken_retries_refusals (lib : Lib) (fuel latency : Nat) (body : String)
    (rest : List (Nat × HttpResult)) (json : Json) (bad : List (Nat × String)) (s : State)
    (hbad : ∀ p ∈ bad, ∃ j, lib.NewJson p.2 = some j ∧ (j.Get "errcode").MustInt ≠ 0)
    (hnet : s.net = answers bad ++ (latency, HttpResult.response body true) :: rest)
    (hjson : lib.NewJson body = some json) (hcode : (json.Get "errcode").MustInt = 0) :
    (GetAccessToken lib (fuel + bad.length + 1) s).1 = Outcome.returned ∧
    (GetAccessToken lib (fuel + bad.length + 1) s).2.m =
      { MCH := s.m.MCH, CorpID := s.m.CorpID, CorpSecret := s.m.CorpSecret,
        AgentID := s.m.AgentID, AccessToken := (json.Get "access_token").MustString,
        AccessTokenCreatAt :=
          s.now + (bad.map Prod.fst).sum + bad.length * (5 * second) + latency } ∧
    (GetAccessToken lib (fuel + bad.length + 1) s).2.now =
      s.now + (bad.map Prod.fst).sum + bad.length * (5 * second) + latency ∧
    (GetAccessToken lib (fuel + bad.length + 1) s).2.net = rest ∧
    actions (emitted s (GetAccessToken lib (fuel + bad.length + 1) s).2) =
      retried bad (Event.get (tokenURL s.m.CorpID s.m.CorpSecret)) ++
        [Event.get (tokenURL s.m.CorpID s.m.CorpSecret)] ∧
    installs (emitted s (GetAccessToken lib (fuel + bad.length + 1) s).2) =
      [(json.Get "access_token").MustString] := by
  obtain ⟨evs, hrun, hact, hinst⟩ :=
    GetAccessToken_refusal_run lib fuel latency body rest json hjson hcode bad s hbad hnet
  rw [hrun]
  refine ⟨rfl, rfl, rfl, rfl, ?_, ?_⟩
  · rw [emitted_of_trace s _ evs rfl, hact]
  · rw [emitted_of_trace s _ evs rfl, hinst]

/-- C7, worked: two refusals `{"errcode":40013,...}` and then `grantText`. -/
theorem GetAccessToken_retries_refusals_witness :
    (GetAccessToken demoLib 3
      (demoState (9000 * second) [(1, HttpResult.response refusalText true),
        (2, HttpResult.response refusalText true),
        (3, HttpResult.response grantText true)])).1 = Outcome.returned ∧
    (GetAccessToken demoLib 3
      (demoState (9000 * second) [(1, HttpResult.response refusalText true),
        (2, HttpResult.response refusalText true),
        (3, HttpResult.response grantText true)])).2.m =
      { demoMSG with AccessToken := "X", AccessTokenCreatAt := 9010 * second + 6 } ∧
    actions (emitted (demoState (9000 * second) [(1, HttpResult.response refusalText true),
        (2, HttpResult.response refusalText true), (3, HttpResult.response grantText true)])
      (GetAccessToken demoLib 3
        (demoState (9000 * second) [(1, HttpResult.response refusalText true),
          (2, HttpResult.response refusalText true),
          (3, HttpResult.response grantText true)])).2) =
      [Event.get (tokenURL "corp" "secret"), Event.sleep (5 * second),
       Event.get (tokenURL "corp" "secret"), Event.sleep (5 * second),
       Event.get (tokenURL "corp" "secret")] := by
  have h := GetAccessToken_retries_refusals demoLib 0 3 grantText [] grantJson
    [(1, refusalText), (2, refusalText)]
    (demoState (9000 * second) [(1, HttpResult.response refusalText true),
      (2, HttpResult.response refusalText true), (3, HttpResult.response grantText true)])
    (by
      intro p hp
      refine ⟨refusalJson, ?_, by decide⟩
      simp only [List.mem_cons, List.mem_singleton, List.not_mem_nil, or_false] at hp
      rcases hp with rfl | rfl <;> rfl)
    rfl rfl (by decide)
  exact ⟨h.1, h.2.1, h.2.2.2.2.1⟩

/-- C10: a dequeued payload that is not JSON ends the process in `log.Fatalln` with
nothing done but the fatal log line: no request, no sleep; the payloads queued behind
it stay in the channel, and the dispatch loop ends there. `sendToWeChat` exits the
process only in this case. -/
theorem sendToWeChat_exits_exactly_on_bad_json (lib : Lib) (conf : Conf) (fuel : Nat)
    (s : State) :
    (∀ (payload : String) (queued : List String),
      s.m.MCH = payload :: queued → lib.NewJson payload = none →
      sendToWeChat lib conf fuel s =
        (Outcome.exited,
          { m := { s.m with MCH := queued }
            now := s.now
            net := s.net
            trace := s.trace ++ [Event.log LogLine.errorJson] }) ∧
      ∀ rounds : Nat, dispatch lib conf fuel (rounds + 1) s =
        (Outcome.exited,
          { m := { s.m with MCH := queued }
            now := s.now
            net := s.net
            trace := s.trace ++ [Event.log LogLine.errorJson] })) ∧
    ((sendToWeChat lib conf fuel s).1 = Outcome.exited →
      ∃ (payload : String) (queued : List String),
        s.m.MCH = payload :: queued ∧ lib.NewJson payload = none) := by
  constructor
  · intro payload queued hq hbad
    have h1 : sendToWeChat lib conf fuel s =
        (Outcome.exited,
          { m := { s.m with MCH := queued }
            now := s.now
            net := s.net
            trace := s.trace ++ [Event.log LogLine.errorJson] }) := by
      simp [sendToWeChat, hq, hbad, State.log]
    refine ⟨h1, fun rounds => ?_⟩
    rw [dispatch, h1]
  · intro hex
    cases hq : s.m.MCH with
    | nil => simp [sendToWeChat, hq] at hex
    | cons payload queued =>
      refine ⟨payload, queued, rfl, ?_⟩
      cases hj : lib.NewJson payload with
      | none => rfl
      | some json =>
        exfalso
        have hl := sendLoop_isLocal lib conf fuel json (json.Get "alerts").Array.length 0
          { s with m := { s.m with MCH := queued } }
        simp only [sendToWeChat, hq, hj] at hex
        rw [hex] at hl
        exact absurd hl (by decide)

/-- C10, worked: a payload that is not JSON, with a well-formed one queued behind it. -/
theorem sendToWeChat_exits_exactly_on_bad_json_witness :
    dispatch demoLib demoConf 3 1
        { m := { demoMSG with MCH := ["not json", alertText] }
          now := 2000 * second
          net := []
          trace := [] } =
      (Outcome.exited,
        { m := { demoMSG with MCH := [alertText] }
          now := 2000 * second
          net := []
          trace := [Event.log LogLine.errorJson] }) :=
  ((sendToWeChat_exits_exactly_on_bad_json demoLib demoConf 3
    { m := { demoMSG with MCH := ["not json", alertText] }
      now := 2000 * second
      net := []
      trace := [] }).1 "not json" [alertText] rfl rfl).2 0


/-- C9, as stated, fails: for an alert whose name is `disk "sda" full` the body handed
to `Send` is not well-formed JSON, since the name is inserted without escaping. -/
theorem buildMsg_with_quotes_is_not_json :
    (readAlert quotedAlert).alertName = "disk \"sda\" full" ∧
    decodeJson (buildMsg demoConf (readAlert quotedAlert) (demoLib.localTime 0)) = none :=
  ⟨by decide, by rfl⟩

/-- C9, amended: each iteration of the loop hands to `Send` the text `buildMsg` of the
event it read, whatever the event's level. That text is the fixed template with the
strings inserted as they are, without JSON escaping: whenever the recipient and the
event's status, alert name, project, environment, hostname, job, service and level hold
no double quote, no backslash and no control character, it is a well-formed JSON object
with the fields touser, toparty, totag, msgtype = "text", agentid and text.content, where
touser is the recipient mapped to the level (the empty string for a level that is no
key of the mapping) and text.content embeds the fields of the event, the start time and
the current time, both as "YYYY-MM-DD hh:mm:ss". -/
theorem buildMsg_is_message_object (lib : Lib) (conf : Conf) (fuel : Nat) (json : Json)
    (n i : Nat) (s : State) :
    sendLoop lib conf fuel json (n + 1) i s =
      (match Send lib fuel
          (buildMsg conf (readAlert ((json.Get "alerts").GetIndex i)) (lib.localTime s.now)) s with
        | (Outcome.returned, t) => sendLoop lib conf fuel json n (i + 1) (t.Sleep (1 * second))
        | (o, t) => (o, t)) ∧
    (∀ (a : AlertEvent) (now : WallTime),
      plainText (conf.recipient a.level) → plainText a.status → plainText a.alertName →
      plainText a.project → plainText a.env → plainText a.hostName → plainText a.job →
      plainText a.service → plainText a.level →
      decodeJson (buildMsg conf a now) =
        some (messageObject (conf.recipient a.level)
          (contentText a.status a.alertName a.project a.env a.hostName a.job a.service a.level
            (Format a.startsTime) (Format now)))) ∧
    (∀ level : String, conf.Level.lookup level = none → conf.recipient level = "") := by
  refine ⟨by rw [sendLoop], ?_, ?_⟩
  · intro a now hu h1 h2 h3 h4 h5 h6 h7 h8
    exact decodeJson_formatMsg _ _ _ _ _ _ _ _ _ _ _ hu h1 h2 h3 h4 h5 h6 h7 h8
      (Format_plain _) (Format_plain _)
  · intro level h
    simp [Conf.recipient, h]

/-- C9, worked: the event of the decoding example, whose level is empty and so maps to
the empty recipient, gives a well-formed message object. -/
theorem buildMsg_is_message_object_witness :
    decodeJson (buildMsg demoConf (readAlert ((alertJson.Get "alerts").GetIndex 0))
        (demoLib.localTime 0)) =
      some (messageObject ""
        (contentText "firing" "A" "" "" "" "" "" ""
          "2024-01-01 00:00:00" "2024-01-02 10:00:00")) :=
  (buildMsg_is_message_object demoLib demoConf 0 alertJson 0 0 (demoState 0 [])).2.1
    (readAlert ((alertJson.Get "alerts").GetIndex 0)) (demoLib.localTime 0)
    (by decide) (by decide)
    (by decide) (by decide)
    (by decide) (by decide)
    (by decide) (by decide)
    (by decide)


end WechatAlarm
